import Mathlib

/-!
# Verification of the retention data-grid (client-call-manager frontend)

Shallow embedding of the interactive retention grid implemented in
`src/frontend/src/pages/RetentionPage.tsx`, together with theorems settling
the specification claims about it.  TypeScript records become Lean
structures or functions from a field enumeration to `String`; JavaScript
string truthiness (`''` is falsy) is made explicit; `undefined` query-values
become `Option.none` (the HTTP layer drops `none` entries and keeps empty
strings, which is exactly the distinction the code's `x || undefined`
pattern exploits).
-/

namespace RetentionGrid

/-- JS `Array.prototype.indexOf`, as an `Option Nat` (the code checks for
`-1` explicitly). -/
def jsIndexOf (l : List String) (x : String) : Option Nat :=
  match l with
  | [] => none
  | a :: as_ => if a = x then some 0 else (jsIndexOf as_ x).map (· + 1)

/-- JS `arr.splice(i, 1)` — remove the element at index `i`. -/
def spliceRemove (l : List String) (i : Nat) : List String :=
  l.take i ++ l.drop (i + 1)

/-- JS `arr.splice(i, 0, x)` — insert `x` at index `i` (clamped to the end
when `i` exceeds the length, as in JS). -/
def spliceInsert (l : List String) (i : Nat) (x : String) : List String :=
  l.take i ++ x :: l.drop i

/-- `handleDrop` (RetentionPage.tsx, lines 1339–1355): the column-reorder
state update.  `sourceKey` is the dragged column (from the drag ref),
`targetKey` the drop target, `prev` the current order.  The source returns
early when the keys coincide; inside the updater both indices are looked up
on the *original* array, the source is removed, and it is re-inserted at
the pre-removal target index. -/
def handleDrop (sourceKey targetKey : String) (prev : List String) : List String :=
  if sourceKey = targetKey then prev
  else
    match jsIndexOf prev sourceKey, jsIndexOf prev targetKey with
    | some fromIdx, some toIdx =>
        spliceInsert (spliceRemove prev fromIdx) toIdx sourceKey
    | _, _ => prev

end RetentionGrid

namespace RetentionGrid

theorem jsIndexOf_cons (a x : String) (l : List String) :
    jsIndexOf (a :: l) x =
      if a = x then some 0 else (jsIndexOf l x).map (· + 1) := rfl

theorem jsIndexOf_append_of_not_mem (l₁ l₂ : List String) (x : String)
    (h : x ∉ l₁) :
    jsIndexOf (l₁ ++ l₂) x = (jsIndexOf l₂ x).map (· + l₁.length) := by
  induction l₁ with
  | nil =>
      simp only [List.nil_append, List.length_nil]
      cases jsIndexOf l₂ x <;> simp
  | cons a as_ ih =>
      have hax : ¬ a = x := fun hc => h (hc ▸ List.mem_cons_self a as_)
      have hmem : x ∉ as_ := fun hc => h (List.mem_cons_of_mem a hc)
      simp only [List.cons_append, jsIndexOf_cons, if_neg hax, ih hmem]
      cases jsIndexOf l₂ x <;> simp [Nat.add_comm, Nat.add_assoc, Nat.add_left_comm]

theorem jsIndexOf_self_head (x : String) (l : List String) :
    jsIndexOf (x :: l) x = some 0 := by
  simp [jsIndexOf_cons]

theorem jsIndexOf_eq_none_iff (l : List String) (x : String) :
    jsIndexOf l x = none ↔ x ∉ l := by
  induction l with
  | nil => simp [jsIndexOf]
  | cons a as_ ih =>
      simp only [jsIndexOf_cons, List.mem_cons]
      by_cases hax : a = x
      · simp [hax]
      · rw [if_neg hax]
        constructor
        · intro hnone
          have htail : jsIndexOf as_ x = none := by
            cases h : jsIndexOf as_ x with
            | none => rfl
            | some n => rw [h] at hnone; simp at hnone
          intro hc
          rcases hc with hc | hc
          · exact hax hc.symm
          · exact (ih.mp htail) hc
        · intro hnm
          have hxas : x ∉ as_ := fun hc => hnm (Or.inr hc)
          rw [ih.mpr hxas]
          rfl

theorem jsIndexOf_first_occurrence (xs rest : List String) (s : String)
    (h : s ∉ xs) :
    jsIndexOf (xs ++ s :: rest) s = some xs.length := by
  rw [jsIndexOf_append_of_not_mem xs (s :: rest) s h, jsIndexOf_self_head]
  simp [Option.map_some']

theorem spliceRemove_at (xs rest : List String) (a : String) :
    spliceRemove (xs ++ a :: rest) xs.length = xs ++ rest := by
  unfold spliceRemove
  have h1 : (xs ++ a :: rest).take xs.length = xs := by
    simp [List.take_left]
  have h2 : (xs ++ a :: rest).drop (xs.length + 1) = rest := by
    have : xs ++ a :: rest = (xs ++ [a]) ++ rest := by simp
    rw [this]
    have hl : (xs ++ [a]).length = xs.length + 1 := by simp
    rw [← hl]
    exact List.drop_left (xs ++ [a]) rest
  rw [h1, h2]

theorem spliceInsert_at (xs rest : List String) (a : String) :
    spliceInsert (xs ++ rest) xs.length a = xs ++ a :: rest := by
  unfold spliceInsert
  have h1 : (xs ++ rest).take xs.length = xs := List.take_left xs rest
  have h2 : (xs ++ rest).drop xs.length = rest := List.drop_left xs rest
  rw [h1, h2]

/-- **C1 counterexample.**  The claim demands that reordering `A` to before
`C` in `[A, B, C]` yield `[B, A, C]` (target index computed after removal).
The code computes the target index before the removal, so the drop lands
the source *after* the target: the result is `[B, C, A]`. -/
theorem handleDrop_not_before_target :
    handleDrop "A" "C" ["A", "B", "C"] = ["B", "C", "A"] ∧
      handleDrop "A" "C" ["A", "B", "C"] ≠ ["B", "A", "C"] := by
  constructor
  · rfl
  · decide

/-- **C1 (amended).**  `handleDrop(source, target)` is a no-op when the keys
coincide or either key is absent from the order.  Otherwise it removes the
source and re-inserts it at the target's index *as computed before the
removal*: when the source precedes the target this places the source
immediately after the target (so `[A,B,C]` with source `A`, target `C`
yields `[B,C,A]`), and when the target precedes the source it places the
source immediately before the target. -/
theorem handleDrop_spec :
    (∀ s prev, handleDrop s s prev = prev) ∧
    (∀ s t prev, s ∉ prev → handleDrop s t prev = prev) ∧
    (∀ s t prev, t ∉ prev → handleDrop s t prev = prev) ∧
    (∀ xs ys zs (s t : String), s ≠ t → s ∉ xs → t ∉ xs → t ∉ ys →
      handleDrop s t (xs ++ s :: ys ++ t :: zs) = xs ++ ys ++ t :: s :: zs) ∧
    (∀ xs ys zs (s t : String), s ≠ t → t ∉ xs → s ∉ xs → s ∉ ys →
      handleDrop s t (xs ++ t :: ys ++ s :: zs) = xs ++ s :: t :: ys ++ zs) ∧
    handleDrop "A" "C" ["A", "B", "C"] = ["B", "C", "A"] := by
  refine ⟨?_, ?_, ?_, ?_, ?_, rfl⟩
  · intro s prev
    simp [handleDrop]
  · intro s t prev hs
    unfold handleDrop
    by_cases hst : s = t
    · simp [hst]
    · rw [if_neg hst, (jsIndexOf_eq_none_iff prev s).mpr hs]
  · intro s t prev ht
    unfold handleDrop
    by_cases hst : s = t
    · simp [hst]
    · rw [if_neg hst, (jsIndexOf_eq_none_iff prev t).mpr ht]
      cases jsIndexOf prev s <;> rfl
  · intro xs ys zs s t hst hsxs htxs htys
    have h1 : xs ++ (s :: ys) ++ (t :: zs) = xs ++ s :: (ys ++ t :: zs) := by simp
    rw [h1]
    unfold handleDrop
    rw [if_neg hst]
    have hfrom : jsIndexOf (xs ++ s :: (ys ++ t :: zs)) s = some xs.length :=
      jsIndexOf_first_occurrence xs (ys ++ t :: zs) s hsxs
    have htnotin : t ∉ xs ++ s :: ys := by
      intro hmem
      rcases List.mem_append.mp hmem with h | h
      · exact htxs h
      · rcases List.mem_cons.mp h with h | h
        · exact hst h.symm
        · exact htys h
    have hto : jsIndexOf (xs ++ s :: (ys ++ t :: zs)) t = some (xs ++ s :: ys).length := by
      have h := jsIndexOf_first_occurrence (xs ++ s :: ys) zs t htnotin
      rw [show (xs ++ s :: ys) ++ t :: zs = xs ++ s :: (ys ++ t :: zs) by simp] at h
      exact h
    rw [hfrom, hto]
    show spliceInsert (spliceRemove (xs ++ s :: (ys ++ t :: zs)) xs.length)
        (xs ++ s :: ys).length s = xs ++ ys ++ t :: s :: zs
    rw [spliceRemove_at xs (ys ++ t :: zs) s]
    have h2 : xs ++ (ys ++ t :: zs) = ((xs ++ ys) ++ [t]) ++ zs := by simp
    have h3 : (xs ++ s :: ys).length = ((xs ++ ys) ++ [t]).length := by simp
    rw [h2, h3, spliceInsert_at ((xs ++ ys) ++ [t]) zs s]
    simp
  · intro xs ys zs s t hst htxs hsxs hsys
    have h1 : xs ++ (t :: ys) ++ (s :: zs) = xs ++ t :: (ys ++ s :: zs) := by simp
    rw [h1]
    unfold handleDrop
    rw [if_neg hst]
    have hsnotin : s ∉ xs ++ t :: ys := by
      intro hmem
      rcases List.mem_append.mp hmem with h | h
      · exact hsxs h
      · rcases List.mem_cons.mp h with h | h
        · exact hst h
        · exact hsys h
    have hfrom : jsIndexOf (xs ++ t :: (ys ++ s :: zs)) s = some (xs ++ t :: ys).length := by
      have h := jsIndexOf_first_occurrence (xs ++ t :: ys) zs s hsnotin
      rw [show (xs ++ t :: ys) ++ s :: zs = xs ++ t :: (ys ++ s :: zs) by simp] at h
      exact h
    have hto : jsIndexOf (xs ++ t :: (ys ++ s :: zs)) t = some xs.length :=
      jsIndexOf_first_occurrence xs (ys ++ s :: zs) t htxs
    rw [hfrom, hto]
    show spliceInsert (spliceRemove (xs ++ t :: (ys ++ s :: zs)) (xs ++ t :: ys).length)
        xs.length s = xs ++ s :: t :: ys ++ zs
    have h2 : xs ++ t :: (ys ++ s :: zs) = (xs ++ t :: ys) ++ s :: zs := by simp
    rw [h2, spliceRemove_at (xs ++ t :: ys) zs s]
    have h3 : (xs ++ t :: ys) ++ zs = xs ++ (t :: (ys ++ zs)) := by simp
    rw [h3, spliceInsert_at xs (t :: (ys ++ zs)) s]
    simp

/-- Witness for `handleDrop_spec`: moving `B` onto `C` in `[A,B,C]` via the
forward-move case. -/
theorem handleDrop_spec_witness :
    handleDrop "B" "C" ["A", "B", "C"] = ["A", "C", "B"] := by
  have h := handleDrop_spec.2.2.2.1 ["A"] [] [] "B" "C"
    (by decide) (by decide) (by decide) (by decide)
  simpa using h

/-- The column registry's key order (RetentionPage.tsx, `DEFAULT_COLS` /
`DEFAULT_COL_ORDER`, lines 1022–1269): the keys of the draggable columns in
registry order (the pinned `accountid` / `full_name` columns are not part of
the order list). -/
def DEFAULT_COL_ORDER : List String :=
  ["tasks", "score", "agent_name", "sales_client_potential", "age",
   "client_qualification_date", "days_in_retention", "trade_count",
   "total_profit", "last_trade_date", "days_from_last_trade",
   "deposit_count", "total_deposit", "balance", "credit", "equity",
   "open_pnl", "live_equity", "max_open_trade", "max_volume", "win_rate",
   "avg_trade_size", "turnover", "active", "active_ftd"]

/-- The column-order merge performed on mount (RetentionPage.tsx, lines
1301–1316): keep the saved keys that exist in the registry
(`saved.filter((k) => COL_DEF_MAP[k])`), then append the registry keys
missing from that list (`DEFAULT_COL_ORDER.filter((k) =>
!validSaved.includes(k))`). -/
def mergeOrder (saved registry : List String) : List String :=
  let validSaved := saved.filter (fun k => decide (k ∈ registry))
  validSaved ++ registry.filter (fun k => decide (k ∉ validSaved))

theorem mergeOrder_mem_of_mem_registry (saved registry : List String)
    (k : String) (h : k ∈ registry) : k ∈ mergeOrder saved registry := by
  unfold mergeOrder
  by_cases hv : k ∈ saved.filter (fun k => decide (k ∈ registry))
  · exact List.mem_append_left _ hv
  · refine List.mem_append_right _ ?_
    rw [List.mem_filter]
    exact ⟨h, decide_eq_true hv⟩

theorem mergeOrder_subset_registry (saved registry : List String)
    (k : String) (h : k ∈ mergeOrder saved registry) : k ∈ registry := by
  unfold mergeOrder at h
  rcases List.mem_append.mp h with h | h
  · simp only [List.mem_filter, decide_eq_true_eq] at h
    exact h.2
  · exact (List.mem_filter.mp h).1

theorem mergeOrder_idem (saved registry : List String) :
    mergeOrder (mergeOrder saved registry) registry = mergeOrder saved registry := by
  have hall : ∀ k ∈ mergeOrder saved registry, k ∈ registry :=
    mergeOrder_subset_registry saved registry
  have h1 : (mergeOrder saved registry).filter (fun k => decide (k ∈ registry))
      = mergeOrder saved registry := by
    rw [List.filter_eq_self]
    intro a ha
    simpa using hall a ha
  show (mergeOrder saved registry).filter (fun k => decide (k ∈ registry)) ++
      registry.filter (fun k =>
        decide (k ∉ (mergeOrder saved registry).filter (fun k => decide (k ∈ registry))))
      = mergeOrder saved registry
  rw [h1]
  have h2 : registry.filter (fun k => decide (k ∉ mergeOrder saved registry)) = [] := by
    rw [List.filter_eq_nil_iff]
    intro a ha
    simp only [decide_eq_true_eq, not_not, Decidable.not_not]
    exact mergeOrder_mem_of_mem_registry saved registry a ha
  rw [h2, List.append_nil]

theorem mergeOrder_nodup (saved registry : List String)
    (hs : saved.Nodup) (hr : registry.Nodup) :
    (mergeOrder saved registry).Nodup := by
  unfold mergeOrder
  refine List.Nodup.append (hs.filter _) (hr.filter _) ?_
  intro a ha hb
  have := (List.mem_filter.mp hb).2
  simp only [decide_eq_true_eq] at this
  exact this ha

theorem mergeOrder_perm (saved registry : List String)
    (hs : saved.Nodup) (hr : registry.Nodup) :
    (mergeOrder saved registry).Perm registry := by
  have hnd := mergeOrder_nodup saved registry hs hr
  have h1 : mergeOrder saved registry ⊆ registry :=
    fun a ha => mergeOrder_subset_registry saved registry a ha
  have h2 : registry ⊆ mergeOrder saved registry :=
    fun a ha => mergeOrder_mem_of_mem_registry saved registry a ha
  exact (List.subperm_of_subset hnd h1).antisymm (List.subperm_of_subset hr h2)

/-- **C6 counterexample.**  The claim quantifies over *every* stored order
list; a stored list that contains a key twice survives the merge with the
duplicate intact (the code only filters out unknown keys, it never
de-duplicates), so the merged order is not duplicate-free. -/
theorem mergeOrder_duplicate_counterexample :
    ¬ (mergeOrder ["score", "score"] DEFAULT_COL_ORDER).Nodup := by
  intro h
  have : "score" ≠ "score" := by
    have h2 : mergeOrder ["score", "score"] DEFAULT_COL_ORDER =
        "score" :: "score" :: (DEFAULT_COL_ORDER.filter
          (fun k => decide (k ∉ ["score", "score"].filter
            (fun k => decide (k ∈ DEFAULT_COL_ORDER))))) := by rfl
    rw [h2] at h
    exact (List.nodup_cons.mp h).1 (List.mem_cons_self _ _) |>.elim
  exact this rfl

/-- **C6 (amended).**  For every *duplicate-free* stored order list the merge
keeps the stored keys that exist in the registry as a prefix (in their
stored relative order), contains every registry key, contains only registry
keys, is a permutation of the registry (hence no duplicates, no drops), and
is idempotent; stored `[B, A]` against registry `[A, B, C]` yields
`[B, A, C]`.  (A duplicated stored key survives the merge, which is the one
deviation from the claim as stated.) -/
theorem mergeOrder_spec (saved : List String) (hs : saved.Nodup) :
    ((mergeOrder saved DEFAULT_COL_ORDER).take
        (saved.filter (fun k => decide (k ∈ DEFAULT_COL_ORDER))).length
      = saved.filter (fun k => decide (k ∈ DEFAULT_COL_ORDER))) ∧
    (∀ k ∈ DEFAULT_COL_ORDER, k ∈ mergeOrder saved DEFAULT_COL_ORDER) ∧
    (∀ k ∈ mergeOrder saved DEFAULT_COL_ORDER, k ∈ DEFAULT_COL_ORDER) ∧
    (mergeOrder saved DEFAULT_COL_ORDER).Perm DEFAULT_COL_ORDER ∧
    (mergeOrder saved DEFAULT_COL_ORDER).Nodup ∧
    mergeOrder (mergeOrder saved DEFAULT_COL_ORDER) DEFAULT_COL_ORDER
      = mergeOrder saved DEFAULT_COL_ORDER ∧
    mergeOrder ["B", "A"] ["A", "B", "C"] = ["B", "A", "C"] := by
  have hr : DEFAULT_COL_ORDER.Nodup := by decide
  refine ⟨?_, mergeOrder_mem_of_mem_registry saved DEFAULT_COL_ORDER,
    mergeOrder_subset_registry saved DEFAULT_COL_ORDER,
    mergeOrder_perm saved DEFAULT_COL_ORDER hs hr,
    mergeOrder_nodup saved DEFAULT_COL_ORDER hs hr,
    mergeOrder_idem saved DEFAULT_COL_ORDER, by rfl⟩
  show ((saved.filter (fun k => decide (k ∈ DEFAULT_COL_ORDER))) ++ _).take _ = _
  rw [List.take_left]

/-- Witness for `mergeOrder_spec` at the duplicate-free stored list
`["balance", "score"]`. -/
theorem mergeOrder_spec_witness :
    (mergeOrder ["balance", "score"] DEFAULT_COL_ORDER).Perm DEFAULT_COL_ORDER := by
  exact (mergeOrder_spec ["balance", "score"] (by decide)).2.2.2.1

/-! ## The global filter record

The TypeScript `Filters` interface (RetentionPage.tsx, lines 222–259) is a
record of 36 string-valued fields (the numeric-operator, bool-filter and
date-preset fields are TS string unions, with `''` as the inactive value).
We embed it as a function from the field enumeration to `String`, which
makes frame conditions ("every other field unchanged") directly statable. -/

inductive FField where
  | accountid | qual_date_from | qual_date_to
  | trade_count_op | trade_count_val
  | days_op | days_val
  | profit_op | profit_val
  | last_trade_preset | last_trade_from | last_trade_to
  | days_from_last_trade_op | days_from_last_trade_val
  | deposit_count_op | deposit_count_val
  | total_deposit_op | total_deposit_val
  | balance_op | balance_val
  | credit_op | credit_val
  | equity_op | equity_val
  | live_equity_op | live_equity_val
  | max_open_trade_op | max_open_trade_val
  | max_volume_op | max_volume_val
  | turnover_op | turnover_val
  | assigned_to | task_id
  | active | active_ftd
deriving DecidableEq

abbrev Filters : Type := FField → String

/-- `EMPTY_FILTERS` (lines 261–298): every field is the empty string. -/
def EMPTY_FILTERS : Filters := fun _ => ""

/-- A single-field update, i.e. the spread `{ ...prev, [key]: val }`. -/
def setF (f : Filters) (x : FField) (v : String) : Filters :=
  fun y => if y = x then v else f y

/-- JS `a && b` on strings: `''` (falsy) short-circuits to itself. -/
def andS (a b : String) : String := if a = "" then "" else b

/-- `countActive` (lines 300–324): the number of truthy entries of the
listed filter expressions (`.filter(Boolean).length`). -/
def countActive (f : Filters) : Nat :=
  ([f .accountid,
    f .qual_date_from,
    f .qual_date_to,
    andS (f .trade_count_op) (f .trade_count_val),
    andS (f .days_op) (f .days_val),
    andS (f .profit_op) (f .profit_val),
    (if f .last_trade_preset = "custom" then f .last_trade_from
     else f .last_trade_preset),
    andS (f .days_from_last_trade_op) (f .days_from_last_trade_val),
    andS (f .deposit_count_op) (f .deposit_count_val),
    andS (f .total_deposit_op) (f .total_deposit_val),
    andS (f .balance_op) (f .balance_val),
    andS (f .credit_op) (f .credit_val),
    andS (f .equity_op) (f .equity_val),
    andS (f .live_equity_op) (f .live_equity_val),
    andS (f .max_open_trade_op) (f .max_open_trade_val),
    andS (f .max_volume_op) (f .max_volume_val),
    andS (f .turnover_op) (f .turnover_val),
    f .assigned_to,
    f .task_id,
    f .active,
    f .active_ftd].filter (fun s => s ≠ "")).length

/-! ## Per-column filters

The `ColFilter` union (lines 179–184).  Optional string members (`val2?`,
`preset?`, `from?`, `to?`) are embedded as `String` with `""` for *absent*:
every truthiness test the code performs on them (`filter.val2`,
`filter.preset`, `filter.from`, `filter.to`, `cf.val2 ?? ''`) is
insensitive to the distinction between `undefined` and `''`.  The
`ColFilters` object map becomes an association list (JS objects preserve
insertion order; keys are unique). -/

inductive ColFilter where
  | text (value : String)
  | numeric (op val val2 : String)
  | date (preset fromD toD : String)
deriving DecidableEq

abbrev ColFiltersMap : Type := List (String × ColFilter)

/-- JS `delete next[col]` on the object map. -/
def eraseKey (m : ColFiltersMap) (col : String) : ColFiltersMap :=
  m.filter (fun e => decide (e.1 ≠ col))

/-- JS `{ ...prev, [col]: v }`: replace in place when the key exists,
append otherwise. -/
def setKey (m : ColFiltersMap) (col : String) (v : ColFilter) : ColFiltersMap :=
  if m.any (fun e => decide (e.1 = col)) then
    m.map (fun e => if e.1 = col then (col, v) else e)
  else m ++ [(col, v)]

/-- `ColTextFilter.handleChange` (lines 336–345): an empty input deletes the
entry, anything else stores a text filter. -/
def colTextChange (col v : String) (m : ColFiltersMap) : ColFiltersMap :=
  if v = "" then eraseKey m col else setKey m col (.text v)

/-- `ColNumericFilter.update` (lines 379–390): an empty primary value
deletes the entry; otherwise the entry stores the operator and value, and
`val2` only when the operator is `between` and the second bound is truthy. -/
def colNumericUpdate (col op val val2 : String) (m : ColFiltersMap) : ColFiltersMap :=
  if val = "" then eraseKey m col
  else setKey m col (.numeric op val (if op = "between" ∧ val2 ≠ "" then val2 else ""))

/-- `ColDateFilter.update` (lines 463–476): an empty preset deletes the
entry; `custom` stores the explicit bounds; any other preset stores the
range computed by `getPresetRange` — that range depends on the wall clock,
so it is passed in here as `rFrom`/`rTo`. -/
def colDateUpdate (col p f t rFrom rTo : String) (m : ColFiltersMap) : ColFiltersMap :=
  if p = "" then eraseKey m col
  else if p = "custom" then setKey m col (.date "custom" f t)
  else setKey m col (.date p rFrom rTo)

/-- `activeColFilterCount` (line 1472): `Object.keys(colFilters).length`. -/
def activeColFilterCount (m : ColFiltersMap) : Nat := (m.map Prod.fst).length

/-! ## Grid state and its transitions -/

/-- `'asc' | 'desc'` — the sort-direction union type. -/
inductive SortDir where
  | asc | desc
deriving DecidableEq

/-- The mutable grid state owned by `RetentionPage` (lines 1274–1298),
restricted to the pieces the claims are about. -/
structure GridState where
  page : Nat
  sortBy : String
  sortDir : SortDir
  draft : Filters
  applied : Filters
  colFilters : ColFiltersMap
  debouncedColFilters : ColFiltersMap
  activityDays : String

/-- The state created on mount. -/
def initState : GridState :=
  { page := 1, sortBy := "accountid", sortDir := .asc,
    draft := EMPTY_FILTERS, applied := EMPTY_FILTERS,
    colFilters := [], debouncedColFilters := [], activityDays := "35" }

/-- `handleSort` (lines 1461–1465): re-clicking the active column toggles
the direction, clicking another column selects it ascending; every click
resets the page to 1. -/
def handleSort (col : String) (s : GridState) : GridState :=
  if s.sortBy = col then
    { s with sortDir := (if s.sortDir = .asc then .desc else .asc), page := 1 }
  else
    { s with sortBy := col, sortDir := .asc, page := 1 }

/-- `applyFilters` (line 1467): snapshot draft into applied, reset page. -/
def applyFilters (s : GridState) : GridState :=
  { s with applied := s.draft, page := 1 }

/-- `clearFilters` (line 1468): reset draft and applied, reset page. -/
def clearFilters (s : GridState) : GridState :=
  { s with draft := EMPTY_FILTERS, applied := EMPTY_FILTERS, page := 1 }

/-- `clearColFilters` (line 1469). -/
def clearColFiltersState (s : GridState) : GridState :=
  { s with colFilters := [] }

/-- The debounce-timer body (lines 1448–1457): when the 400 ms quiet period
elapses the pending column filters are committed and the page resets. -/
def debounceFire (s : GridState) : GridState :=
  { s with debouncedColFilters := s.colFilters, page := 1 }

/-- **C4.**  Applying the draft filters, clearing all filters, any sort
click (which covers both changing the sort column and flipping the
direction), and the debounce commit of a per-column filter change each set
the page back to 1. -/
theorem page_reset_to_one (s : GridState) (col : String) :
    (applyFilters s).page = 1 ∧
    (clearFilters s).page = 1 ∧
    (handleSort col s).page = 1 ∧
    (debounceFire s).page = 1 := by
  refine ⟨rfl, rfl, ?_, rfl⟩
  unfold handleSort
  by_cases h : s.sortBy = col
  · rw [if_pos h]
  · rw [if_neg h]

/-- Witness for `page_reset_to_one` at the initial state. -/
theorem page_reset_to_one_witness : (applyFilters initState).page = 1 :=
  (page_reset_to_one initState "total_profit").1

/-- **C5.**  The sort state machine: clicking column `c` from a state whose
sort column differs from `c` yields `(c, asc)`; re-clicking the active
column flips `asc → desc → asc`; every click resets the page to 1.  The
state type itself has exactly one (column, direction) pair — there is no
unsorted state to transition to. -/
theorem handleSort_transition (s : GridState) (c : String) :
    (handleSort c s).page = 1 ∧
    (handleSort c s).sortBy = c ∧
    (s.sortBy ≠ c → (handleSort c s).sortDir = .asc) ∧
    (s.sortBy = c → s.sortDir = .asc → (handleSort c s).sortDir = .desc) ∧
    (s.sortBy = c → s.sortDir = .desc → (handleSort c s).sortDir = .asc) := by
  unfold handleSort
  by_cases h : s.sortBy = c
  · rw [if_pos h]
    refine ⟨rfl, h, fun hc => absurd h hc, fun _ hd => ?_, fun _ hd => ?_⟩
    · simp [hd]
    · rw [hd]; rfl
  · rw [if_neg h]
    exact ⟨rfl, rfl, fun _ => rfl, fun hc => absurd hc h, fun hc => absurd hc h⟩

/-- Witness for `handleSort_transition`: from the initial state, clicking
`total_profit` sorts it ascending; clicking `accountid` (the active column)
flips to descending. -/
theorem handleSort_transition_witness :
    (handleSort "total_profit" initState).sortBy = "total_profit" ∧
    (handleSort "total_profit" initState).sortDir = .asc ∧
    (handleSort "accountid" initState).sortDir = .desc := by
  refine ⟨(handleSort_transition initState "total_profit").2.1,
    (handleSort_transition initState "total_profit").2.2.1 (by decide),
    (handleSort_transition initState "accountid").2.2.2.1 rfl rfl⟩

/-! ## Pagination -/

def PAGE_SIZE : Nat := 50

/-- `totalPages` (line 1474): `data ? Math.ceil(data.total / PAGE_SIZE) : 0`,
with `data` absent modelled as `none`. -/
def totalPages (dataTotal : Option Nat) : Nat :=
  match dataTotal with
  | none => 0
  | some total => (total + PAGE_SIZE - 1) / PAGE_SIZE

/-- The Prev button's updater (line 1806): `setPage(p => Math.max(1, p - 1))`. -/
def prevPageUpdate (p : Nat) : Nat := max 1 (p - 1)

/-- The Next button's updater (line 1808): `setPage(p => Math.min(totalPages, p + 1))`. -/
def nextPageUpdate (tp p : Nat) : Nat := min tp (p + 1)

/-- Prev's `disabled` condition (line 1806): `page === 1 || loading`. -/
def prevDisabled (p : Nat) (loading : Bool) : Bool := decide (p = 1) || loading

/-- Next's `disabled` condition (line 1808): `page === totalPages || loading`. -/
def nextDisabled (tp p : Nat) (loading : Bool) : Bool := decide (p = tp) || loading

/-- The pagination controls render only when `totalPages > 1` (line 1804). -/
def paginationVisible (tp : Nat) : Bool := decide (1 < tp)

/-- **C7.**  `totalPages` is `⌈total / 50⌉` (characterised by the two ceiling
bounds); Prev never takes the page below 1 and Next never above
`totalPages`; each button is disabled at its bound; with `total = 0` the
page count is 0 and the navigation is not rendered at all (hence disabled);
nothing underflows (`max`/`min` with ℕ truncation). -/
theorem pagination_bounds (total p tp : Nat) (loading : Bool) :
    (total ≤ PAGE_SIZE * totalPages (some total)) ∧
    (0 < total → PAGE_SIZE * (totalPages (some total) - 1) < total) ∧
    (1 ≤ prevPageUpdate p) ∧
    (nextPageUpdate tp p ≤ tp) ∧
    prevDisabled 1 loading = true ∧
    nextDisabled tp tp loading = true ∧
    totalPages (some 0) = 0 ∧
    totalPages none = 0 ∧
    paginationVisible (totalPages (some 0)) = false ∧
    prevPageUpdate 1 = 1 := by
  refine ⟨?_, ?_, ?_, ?_, ?_, ?_, rfl, rfl, rfl, rfl⟩
  · show total ≤ 50 * ((total + 50 - 1) / 50)
    omega
  · intro h
    show 50 * ((total + 50 - 1) / 50 - 1) < total
    omega
  · exact Nat.le_max_left 1 _
  · exact Nat.min_le_left tp _
  · simp [prevDisabled]
  · simp [nextDisabled]

/-- Witness for `pagination_bounds` at `total = 120`, the spec's worked
example (`totalPages = 3`). -/
theorem pagination_bounds_witness :
    totalPages (some 120) = 3 ∧ 120 ≤ PAGE_SIZE * totalPages (some 120) := by
  exact ⟨rfl, (pagination_bounds 120 1 3 false).1⟩

/-! ## Virtualized row window -/

/-- The window computed by the virtualizer: the rendered contiguous index
range (absent when there are no rows) and the two spacer heights. -/
structure Window where
  range : Option (Nat × Nat)
  beforeHeight : Nat
  afterHeight : Nat
deriving DecidableEq

/-- Modelled from the spec: the virtualizer itself is the third-party
`@tanstack/react-virtual` library (`useVirtualizer`, RetentionPage.tsx lines
1552–1557, configured with `estimateSize = 44` and `overscan = 10`), whose
code is not part of this repository.  This follows §4.6's `computeWindow`
contract: the rendered range covers the rows overlapping the viewport plus
`overscan` rows on each side (clamped into `[0, rowCount)`), all heights use
the estimated row height, `beforeHeight = startIndex * estimatedRowHeight`
and `afterHeight = (rowCount − endIndex − 1) * estimatedRowHeight` — the
latter two exactly matching the repository's spacer rows (lines 1846–1883:
`items[0].start` and `getTotalSize() − items.last.end`), and an empty window
with zero spacer heights when `rowCount = 0`. -/
def computeWindow (rowCount scrollTop viewportHeight estimatedRowHeight overscan : Nat) :
    Window :=
  if rowCount = 0 then ⟨none, 0, 0⟩
  else
    let firstVisible := scrollTop / estimatedRowHeight
    let lastVisible := (scrollTop + viewportHeight) / estimatedRowHeight
    let s := min (rowCount - 1) (firstVisible - overscan)
    let e := min (rowCount - 1) (lastVisible + overscan)
    ⟨some (s, e), s * estimatedRowHeight, (rowCount - 1 - e) * estimatedRowHeight⟩

theorem window_arith (rc fv lv ov rh : Nat) (hrc : rc ≠ 0) (hdivle : fv ≤ lv) :
    min (rc - 1) (fv - ov) ≤ min (rc - 1) (lv + ov) ∧
    min (rc - 1) (lv + ov) < rc ∧
    min (rc - 1) (fv - ov) * rh
      + (min (rc - 1) (lv + ov) - min (rc - 1) (fv - ov) + 1) * rh
      + (rc - 1 - min (rc - 1) (lv + ov)) * rh = rc * rh := by
  have hse : min (rc - 1) (fv - ov) ≤ min (rc - 1) (lv + ov) := by omega
  have hebound : min (rc - 1) (lv + ov) ≤ rc - 1 := Nat.min_le_left _ _
  refine ⟨hse, by omega, ?_⟩
  set a := min (rc - 1) (fv - ov) with ha
  set b := min (rc - 1) (lv + ov) with hb
  have hsum : a + (b - a + 1) + (rc - 1 - b) = rc := by omega
  have hdistrib : a * rh + (b - a + 1) * rh + (rc - 1 - b) * rh
      = (a + (b - a + 1) + (rc - 1 - b)) * rh := by ring
  rw [hdistrib, hsum]

/-- **C9.**  With no rows the window is empty and both spacers are 0; for
every non-empty window the leading spacer, the rendered rows and the
trailing spacer together reconstruct the full `rowCount * estimatedRowHeight`
scroll extent; and in the spec's concrete scenario (1000 rows, 44 px rows,
600 px viewport, overscan 10, scrollTop 4400) the range is `[90, 123]`,
so the start index is ≤ 90 and the end index ≥ 110. -/
theorem computeWindow_spec (rowCount scrollTop viewportHeight rh overscan : Nat)
    (hrc : rowCount ≠ 0) :
    computeWindow 0 scrollTop viewportHeight rh overscan = ⟨none, 0, 0⟩ ∧
    (∀ s e, (computeWindow rowCount scrollTop viewportHeight rh overscan).range = some (s, e) →
      s ≤ e ∧ e < rowCount ∧
      (computeWindow rowCount scrollTop viewportHeight rh overscan).beforeHeight
        + (e - s + 1) * rh
        + (computeWindow rowCount scrollTop viewportHeight rh overscan).afterHeight
        = rowCount * rh) ∧
    (computeWindow 1000 4400 600 44 10).range = some (90, 123) ∧
    90 ≤ 90 ∧ 110 ≤ 123 := by
  refine ⟨rfl, ?_, by rfl, Nat.le_refl 90, by omega⟩
  intro s e hr
  have hwin : computeWindow rowCount scrollTop viewportHeight rh overscan =
      ⟨some (min (rowCount - 1) (scrollTop / rh - overscan),
            min (rowCount - 1) ((scrollTop + viewportHeight) / rh + overscan)),
        min (rowCount - 1) (scrollTop / rh - overscan) * rh,
        (rowCount - 1 - min (rowCount - 1) ((scrollTop + viewportHeight) / rh + overscan)) * rh⟩ := by
    unfold computeWindow
    rw [if_neg hrc]
  rw [hwin] at hr ⊢
  simp only [Option.some.injEq, Prod.mk.injEq] at hr
  obtain ⟨hs, he⟩ := hr
  subst hs
  subst he
  exact window_arith rowCount (scrollTop / rh) ((scrollTop + viewportHeight) / rh)
    overscan rh hrc (Nat.div_le_div_right (Nat.le_add_right _ _))

/-- Witness for `computeWindow_spec` at the spec's scenario: the rendered
extent reconstruction at 1000 rows. -/
theorem computeWindow_spec_witness :
    (computeWindow 1000 4400 600 44 10).beforeHeight
      + (123 - 90 + 1) * 44
      + (computeWindow 1000 4400 600 44 10).afterHeight = 1000 * 44 := by
  exact ((computeWindow_spec 1000 4400 600 44 10 (by decide)).2.1 90 123 (by rfl)).2.2

/-! ## Reachable column-filter maps (C10) -/

/-- The column-filter maps reachable through the code's setters: the empty
initial map, the three header-filter update handlers, chip dismissal and
`clearColFilters`. -/
inductive ReachCF : ColFiltersMap → Prop where
  | init : ReachCF []
  | textChange (col v : String) {m : ColFiltersMap} :
      ReachCF m → ReachCF (colTextChange col v m)
  | numericUpdate (col op val val2 : String) {m : ColFiltersMap} :
      ReachCF m → ReachCF (colNumericUpdate col op val val2 m)
  | dateUpdate (col p f t rF rT : String) {m : ColFiltersMap} :
      ReachCF m → ReachCF (colDateUpdate col p f t rF rT m)
  | dismiss (col : String) {m : ColFiltersMap} :
      ReachCF m → ReachCF (eraseKey m col)
  | clearAll {m : ColFiltersMap} : ReachCF m → ReachCF []

/-- An entry is *active* in the claim's sense: a text entry has a non-empty
value and a numeric entry a non-empty primary value (date entries carry no
such requirement). -/
def entryActive : ColFilter → Prop
  | .text v => v ≠ ""
  | .numeric _ val _ => val ≠ ""
  | .date _ _ _ => True

theorem eraseKey_preserves (m : ColFiltersMap) (col : String)
    (h : ∀ e ∈ m, entryActive e.2) :
    ∀ e ∈ eraseKey m col, entryActive e.2 :=
  fun e he => h e (List.mem_of_mem_filter he)

theorem eraseKey_keys_nodup (m : ColFiltersMap) (col : String)
    (h : (m.map Prod.fst).Nodup) :
    ((eraseKey m col).map Prod.fst).Nodup :=
  h.sublist ((List.filter_sublist m).map Prod.fst)

theorem setKey_preserves (m : ColFiltersMap) (col : String) (v : ColFilter)
    (h : ∀ e ∈ m, entryActive e.2) (hv : entryActive v) :
    ∀ e ∈ setKey m col v, entryActive e.2 := by
  intro e he
  unfold setKey at he
  by_cases hc : m.any (fun e => decide (e.1 = col))
  · rw [if_pos hc] at he
    rcases List.mem_map.mp he with ⟨e₀, he₀, heq⟩
    by_cases h₀ : e₀.1 = col
    · rw [if_pos h₀] at heq
      rw [← heq]
      exact hv
    · rw [if_neg h₀] at heq
      rw [← heq]
      exact h e₀ he₀
  · rw [if_neg hc] at he
    rcases List.mem_append.mp he with he | he
    · exact h e he
    · rcases List.mem_singleton.mp he with rfl
      exact hv

theorem setKey_keys_nodup (m : ColFiltersMap) (col : String) (v : ColFilter)
    (h : (m.map Prod.fst).Nodup) :
    ((setKey m col v).map Prod.fst).Nodup := by
  unfold setKey
  by_cases hc : m.any (fun e => decide (e.1 = col))
  · rw [if_pos hc]
    have hkeys : (m.map (fun e => if e.1 = col then (col, v) else e)).map Prod.fst
        = m.map Prod.fst := by
      rw [List.map_map]
      refine List.map_congr_left ?_
      intro e _
      by_cases h₀ : e.1 = col
      · simp [Function.comp, h₀]
      · simp [Function.comp, h₀]
    rw [hkeys]
    exact h
  · rw [if_neg hc]
    rw [List.map_append]
    refine List.Nodup.append h (by simp) ?_
    intro a ha hb
    rcases List.mem_map.mp ha with ⟨e₀, he₀, heq⟩
    simp only [List.map_cons, List.map_nil, List.mem_singleton] at hb
    rw [List.any_eq_true] at hc
    push_neg at hc
    exact hc e₀ he₀ (decide_eq_true (heq.trans hb))

/-- **C10.**  In every reachable per-column filter map, every entry is
active (text entries have a non-empty value, numeric entries a non-empty
primary value), the keys are pairwise distinct (the object-map model is
sound), and `activeColFilterCount` — `Object.keys(colFilters).length` —
equals the number of entries of the map. -/
theorem reachable_colFilters_active (m : ColFiltersMap) (h : ReachCF m) :
    (∀ e ∈ m, entryActive e.2) ∧
    ((m.map Prod.fst).Nodup) ∧
    activeColFilterCount m = m.length := by
  have hmain : (∀ e ∈ m, entryActive e.2) ∧ ((m.map Prod.fst).Nodup) := by
    induction h with
    | init => exact ⟨fun e he => absurd he (List.not_mem_nil e), by simp⟩
    | textChange col v hm ih =>
        unfold colTextChange
        by_cases hv : v = ""
        · rw [if_pos hv]
          exact ⟨eraseKey_preserves _ col ih.1, eraseKey_keys_nodup _ col ih.2⟩
        · rw [if_neg hv]
          exact ⟨setKey_preserves _ col _ ih.1 hv, setKey_keys_nodup _ col _ ih.2⟩
    | numericUpdate col op val val2 hm ih =>
        unfold colNumericUpdate
        by_cases hv : val = ""
        · rw [if_pos hv]
          exact ⟨eraseKey_preserves _ col ih.1, eraseKey_keys_nodup _ col ih.2⟩
        · rw [if_neg hv]
          exact ⟨setKey_preserves _ col _ ih.1 hv, setKey_keys_nodup _ col _ ih.2⟩
    | dateUpdate col p f t rF rT hm ih =>
        unfold colDateUpdate
        by_cases hp : p = ""
        · rw [if_pos hp]
          exact ⟨eraseKey_preserves _ col ih.1, eraseKey_keys_nodup _ col ih.2⟩
        · rw [if_neg hp]
          by_cases hpc : p = "custom"
          · rw [if_pos hpc]
            exact ⟨setKey_preserves _ col _ ih.1 trivial, setKey_keys_nodup _ col _ ih.2⟩
          · rw [if_neg hpc]
            exact ⟨setKey_preserves _ col _ ih.1 trivial, setKey_keys_nodup _ col _ ih.2⟩
    | dismiss col hm ih =>
        exact ⟨eraseKey_preserves _ col ih.1, eraseKey_keys_nodup _ col ih.2⟩
    | clearAll hm ih =>
        exact ⟨fun e he => absurd he (List.not_mem_nil e), by simp⟩
  refine ⟨hmain.1, hmain.2, ?_⟩
  unfold activeColFilterCount
  exact List.length_map m Prod.fst

/-- Witness for `reachable_colFilters_active`: in the map reached by typing
`5` into the balance column's numeric filter, the single entry is active and
the displayed count is 1. -/
theorem reachable_colFilters_active_witness :
    entryActive (ColFilter.numeric "gt" "5" "") ∧
    activeColFilterCount (colNumericUpdate "balance" "gt" "5" "" []) = 1 := by
  have h := reachable_colFilters_active
    (colNumericUpdate "balance" "gt" "5" "" [])
    (ReachCF.numericUpdate "balance" "gt" "5" "" ReachCF.init)
  exact ⟨h.1 ("balance", ColFilter.numeric "gt" "5" "") (by decide),
    h.2.2.trans (by decide)⟩

/-! ## The query builder

`load` (RetentionPage.tsx, lines 1382–1445) assembles one flat request
parameter object.  A JS property whose value is `undefined` is dropped by
the HTTP layer; a property whose value is `''` is sent as an empty-string
parameter — which is exactly why the code writes `x || undefined` for the
fields it wants omitted.  We embed the object as an ordered list of
`(key, Option String)` pairs (`none` = `undefined`) and the emitted request
map as the sublist of `some`-valued entries. -/

/-- The `x || undefined` idiom. -/
def guardOpt (s : String) : Option String := if s = "" then none else some s

/-- `COL_DEF_MAP[key]?.filterParamKey || key` (line 1391): the three
registry entries with a `filterParamKey` override (lines 1058, 1084, 1122),
every other key maps to itself. -/
def filterParamKey (key : String) : String :=
  if key = "agent_name" then "agent"
  else if key = "client_qualification_date" then "reg_date"
  else if key = "last_trade_date" then "last_call"
  else key

/-- The parameters contributed by one column-filter entry (lines
1388–1408). -/
def colFilterEntryParams (key : String) : ColFilter → List (String × String)
  | .text value =>
      if value ≠ "" then [("filter_" ++ filterParamKey key, value)] else []
  | .numeric op val val2 =>
      if val ≠ "" then
        [("filter_" ++ filterParamKey key ++ "_op", op),
         ("filter_" ++ filterParamKey key ++ "_val", val)] ++
          (if op = "between" ∧ val2 ≠ "" then
            [("filter_" ++ filterParamKey key ++ "_val2", val2)] else [])
      else []
  | .date preset fromD toD =>
      if preset ≠ "" ∧ preset ≠ "custom" then
        [("filter_" ++ filterParamKey key ++ "_preset", preset)]
      else if fromD ≠ "" then
        [("filter_" ++ filterParamKey key ++ "_from", fromD)] ++
          (if toD ≠ "" then [("filter_" ++ filterParamKey key ++ "_to", toD)] else [])
      else []

/-- `colFilterParams` — the loop over `Object.entries(cf)`. -/
def colFilterParamsList (cf : ColFiltersMap) : List (String × String) :=
  cf.flatMap (fun e => colFilterEntryParams e.1 e.2)

/-- The request-parameter object of `load` (lines 1412–1437), in source
order: the always-present page/sort block and the unguarded `accountid`,
then the spread column-filter params, then the global filter params — the
`*_val`, date, `assigned_to` and `task_id` entries guarded with
`|| undefined`, the `*_op`, `active` and `active_ftd` entries unguarded,
and `activity_days: actDays || 35`. -/
def buildParams (p : Nat) (col dir : String) (f : Filters) (actDays : String)
    (cf : ColFiltersMap) : List (String × Option String) :=
  [("page", some (toString p)), ("page_size", some (toString PAGE_SIZE)),
   ("sort_by", some col), ("sort_dir", some dir),
   ("accountid", some (f .accountid))]
  ++ (colFilterParamsList cf).map (fun e => (e.1, some e.2))
  ++ [("qual_date_from", guardOpt (f .qual_date_from)),
      ("qual_date_to", guardOpt (f .qual_date_to)),
      ("trade_count_op", some (f .trade_count_op)),
      ("trade_count_val", guardOpt (f .trade_count_val)),
      ("days_op", some (f .days_op)),
      ("days_val", guardOpt (f .days_val)),
      ("profit_op", some (f .profit_op)),
      ("profit_val", guardOpt (f .profit_val)),
      ("last_trade_from", guardOpt (f .last_trade_from)),
      ("last_trade_to", guardOpt (f .last_trade_to)),
      ("days_from_last_trade_op", some (f .days_from_last_trade_op)),
      ("days_from_last_trade_val", guardOpt (f .days_from_last_trade_val)),
      ("deposit_count_op", some (f .deposit_count_op)),
      ("deposit_count_val", guardOpt (f .deposit_count_val)),
      ("total_deposit_op", some (f .total_deposit_op)),
      ("total_deposit_val", guardOpt (f .total_deposit_val)),
      ("balance_op", some (f .balance_op)),
      ("balance_val", guardOpt (f .balance_val)),
      ("credit_op", some (f .credit_op)),
      ("credit_val", guardOpt (f .credit_val)),
      ("equity_op", some (f .equity_op)),
      ("equity_val", guardOpt (f .equity_val)),
      ("live_equity_op", some (f .live_equity_op)),
      ("live_equity_val", guardOpt (f .live_equity_val)),
      ("max_open_trade_op", some (f .max_open_trade_op)),
      ("max_open_trade_val", guardOpt (f .max_open_trade_val)),
      ("max_volume_op", some (f .max_volume_op)),
      ("max_volume_val", guardOpt (f .max_volume_val)),
      ("turnover_op", some (f .turnover_op)),
      ("turnover_val", guardOpt (f .turnover_val)),
      ("assigned_to", guardOpt (f .assigned_to)),
      ("task_id", guardOpt (f .task_id)),
      ("active", some (f .active)),
      ("active_ftd", some (f .active_ftd)),
      ("activity_days", some (if actDays = "" then "35" else actDays))]

/-- The HTTP layer's serialisation: `undefined` (`none`) entries are
dropped, everything else — empty strings included — is sent. -/
def emittedParams (params : List (String × Option String)) : List (String × String) :=
  params.filterMap (fun e => e.2.map (fun v => (e.1, v)))

/-- The emitted request-parameter map of one `load` call. -/
def buildQuery (p : Nat) (col dir : String) (f : Filters) (actDays : String)
    (cf : ColFiltersMap) : List (String × String) :=
  emittedParams (buildParams p col dir f actDays cf)

/-- The parameter keys the code passes *without* the `|| undefined` guard:
these are emitted even when their source field is the empty string. -/
def UNGUARDED_KEYS : List String :=
  ["accountid", "trade_count_op", "days_op", "profit_op",
   "days_from_last_trade_op", "deposit_count_op", "total_deposit_op",
   "balance_op", "credit_op", "equity_op", "live_equity_op",
   "max_open_trade_op", "max_volume_op", "turnover_op", "active", "active_ftd"]

/-- The operator member of a numeric column filter is one of the `ColNumOp`
union's literals in any state the UI can produce — all we need is that it
is non-empty. -/
def cfOpWf : ColFilter → Prop
  | .numeric op _ _ => op ≠ ""
  | _ => True

theorem mem_emittedParams_iff (params : List (String × Option String))
    (kv : String × String) :
    kv ∈ emittedParams params ↔ (kv.1, some kv.2) ∈ params := by
  unfold emittedParams
  rw [List.mem_filterMap]
  constructor
  · rintro ⟨⟨k, o⟩, hmem, hf⟩
    cases o with
    | none => simp at hf
    | some v =>
        simp only [Option.map_some'] at hf
        have hkv := Option.some.inj hf
        rw [← hkv]
        exact hmem
  · intro hmem
    exact ⟨(kv.1, some kv.2), hmem, rfl⟩

theorem key_mem_emitted {params : List (String × Option String)}
    {k v : String} (h : (k, some v) ∈ params) :
    k ∈ (emittedParams params).map Prod.fst :=
  List.mem_map.mpr ⟨(k, v), (mem_emittedParams_iff params (k, v)).mpr h, rfl⟩

theorem guardOpt_ne_some_empty (s : String) : guardOpt s ≠ some "" := by
  unfold guardOpt
  by_cases h : s = ""
  · rw [if_pos h]; intro hc; cases hc
  · rw [if_neg h]; intro hc; exact h (Option.some.inj hc)

theorem toDigitsCore_length_le (b : Nat) (f : Nat) :
    ∀ (n : Nat) (ds : List Char), ds.length ≤ (Nat.toDigitsCore b f n ds).length := by
  induction f with
  | zero => intro n ds; simp [Nat.toDigitsCore]
  | succ f ih =>
      intro n ds
      unfold Nat.toDigitsCore
      by_cases h : n / b = 0
      · rw [if_pos h]
        simp
      · rw [if_neg h]
        exact Nat.le_trans (Nat.le_succ _) (ih (n / b) (Nat.digitChar (n % b) :: ds))

theorem toString_nat_ne_empty (n : Nat) : toString n ≠ "" := by
  show Nat.repr n ≠ ""
  unfold Nat.repr
  intro hc
  have hlen : (Nat.toDigits 10 n).length = 0 := by
    have := congrArg String.length hc
    simpa [List.asString, String.length] using this
  unfold Nat.toDigits at hlen
  unfold Nat.toDigitsCore at hlen
  by_cases h : n / 10 = 0
  · rw [if_pos h] at hlen
    simp at hlen
  · rw [if_neg h] at hlen
    have h1 := toDigitsCore_length_le 10 n (n / 10) (Nat.digitChar (n % 10) :: [])
    rw [hlen] at h1
    simp at h1

theorem colFilterEntryParams_values_nonempty (key : String) (c : ColFilter)
    (hwf : cfOpWf c) :
    ∀ kv ∈ colFilterEntryParams key c, kv.2 ≠ "" := by
  intro kv hkv
  cases c with
  | text value =>
      by_cases hv : value = ""
      · simp [colFilterEntryParams, hv] at hkv
      · simp [colFilterEntryParams, hv] at hkv
        rw [hkv]
        exact hv
  | numeric op val val2 =>
      by_cases hv : val = ""
      · simp [colFilterEntryParams, hv] at hkv
      · by_cases h2 : op = "between" ∧ val2 ≠ ""
        · simp [colFilterEntryParams, hv, h2.1, h2.2] at hkv
          rcases hkv with rfl | rfl | rfl
          · exact (by decide : ("between" : String) ≠ "")
          · exact hv
          · exact h2.2
        · simp [colFilterEntryParams, hv, h2] at hkv
          rcases hkv with rfl | rfl
          · exact hwf
          · exact hv
  | date preset fromD toD =>
      by_cases hp : preset ≠ "" ∧ preset ≠ "custom"
      · simp [colFilterEntryParams, hp.1, hp.2] at hkv
        rw [hkv]
        exact hp.1
      · by_cases hf : fromD = ""
        · simp [colFilterEntryParams, hp, hf] at hkv
        · by_cases ht : toD = ""
          · simp [colFilterEntryParams, hp, hf, ht] at hkv
            rw [hkv]
            exact hf
          · simp [colFilterEntryParams, hp, hf, ht] at hkv
            rcases hkv with rfl | rfl
            · exact hf
            · exact ht

theorem colFilterParamsList_values_nonempty (cf : ColFiltersMap)
    (hcf : ∀ e ∈ cf, cfOpWf e.2) :
    ∀ kv ∈ colFilterParamsList cf, kv.2 ≠ "" := by
  intro kv hkv
  rcases List.mem_flatMap.mp hkv with ⟨e, he, hkv⟩
  exact colFilterEntryParams_values_nonempty e.1 e.2 (hcf e he) kv hkv

/-- **C2 counterexample.**  With every filter empty the built query still
contains `accountid`, the numeric operator keys, `active` and `active_ftd`
as empty-string parameters: these keys are passed without the
`|| undefined` guard, so the emitted map does contain keys whose value is
the empty string. -/
theorem buildQuery_emits_empty_params :
    ("accountid", "") ∈ buildQuery 1 "accountid" "asc" EMPTY_FILTERS "35" [] ∧
    ("trade_count_op", "") ∈ buildQuery 1 "accountid" "asc" EMPTY_FILTERS "35" [] ∧
    ("active", "") ∈ buildQuery 1 "accountid" "asc" EMPTY_FILTERS "35" [] ∧
    ("active_ftd", "") ∈ buildQuery 1 "accountid" "asc" EMPTY_FILTERS "35" [] := by
  refine ⟨?_, ?_, ?_, ?_⟩ <;> decide

/-- **C2 (amended).**  Every parameter the code passes through
`x || undefined` — the date bounds, every `*_val`, `assigned_to`,
`task_id` — is omitted when its source field is empty, and the
column-filter, page, sort and `activity_days` parameters never carry an
empty value; but the unguarded keys (`accountid`, every `*_op`, `active`,
`active_ftd`) are always present in the emitted map, carrying the empty
string whenever their source field is empty.  Hence: an emitted empty-string
value can occur only at an unguarded key, and all sixteen unguarded keys are
always emitted. -/
theorem buildQuery_omission_spec (p : Nat) (col dir : String) (f : Filters)
    (actDays : String) (cf : ColFiltersMap)
    (hcol : col ≠ "") (hdir : dir ≠ "")
    (hcf : ∀ e ∈ cf, cfOpWf e.2) :
    (∀ kv ∈ buildQuery p col dir f actDays cf, kv.2 = "" → kv.1 ∈ UNGUARDED_KEYS) ∧
    (∀ k ∈ UNGUARDED_KEYS, k ∈ (buildQuery p col dir f actDays cf).map Prod.fst) := by
  constructor
  · intro kv hkv hv
    have hm : (kv.1, some "") ∈ buildParams p col dir f actDays cf := by
      have h := (mem_emittedParams_iff _ kv).mp hkv
      rw [hv] at h
      exact h
    unfold buildParams at hm
    simp only [List.mem_append] at hm
    rcases hm with (hm | hm) | hm
    · simp only [List.mem_cons, List.not_mem_nil, or_false, Prod.mk.injEq] at hm
      rcases hm with ⟨h1, h2⟩ | ⟨h1, h2⟩ | ⟨h1, h2⟩ | ⟨h1, h2⟩ | ⟨h1, h2⟩
      · exact absurd (Option.some.inj h2).symm (toString_nat_ne_empty p)
      · exact absurd (Option.some.inj h2).symm (toString_nat_ne_empty PAGE_SIZE)
      · exact absurd (Option.some.inj h2).symm hcol
      · exact absurd (Option.some.inj h2).symm hdir
      · rw [h1]; decide
    · rcases List.mem_map.mp hm with ⟨e, he, heq⟩
      have hne := colFilterParamsList_values_nonempty cf hcf e he
      have h2 : e.2 = "" := by
        have h3 := congrArg Prod.snd heq
        exact Option.some.inj h3
      exact absurd h2 hne
    · simp only [List.mem_cons, List.not_mem_nil, or_false, Prod.mk.injEq] at hm
      rcases hm with ⟨h1, h2⟩ | ⟨h1, h2⟩ | ⟨h1, h2⟩ | ⟨h1, h2⟩ | ⟨h1, h2⟩ | ⟨h1, h2⟩ | ⟨h1, h2⟩ | ⟨h1, h2⟩ | ⟨h1, h2⟩ | ⟨h1, h2⟩ | ⟨h1, h2⟩ | ⟨h1, h2⟩ | ⟨h1, h2⟩ | ⟨h1, h2⟩ | ⟨h1, h2⟩ | ⟨h1, h2⟩ | ⟨h1, h2⟩ | ⟨h1, h2⟩ | ⟨h1, h2⟩ | ⟨h1, h2⟩ | ⟨h1, h2⟩ | ⟨h1, h2⟩ | ⟨h1, h2⟩ | ⟨h1, h2⟩ | ⟨h1, h2⟩ | ⟨h1, h2⟩ | ⟨h1, h2⟩ | ⟨h1, h2⟩ | ⟨h1, h2⟩ | ⟨h1, h2⟩ | ⟨h1, h2⟩ | ⟨h1, h2⟩ | ⟨h1, h2⟩ | ⟨h1, h2⟩ | ⟨h1, h2⟩
      · exact absurd h2.symm (guardOpt_ne_some_empty _)
      · exact absurd h2.symm (guardOpt_ne_some_empty _)
      · rw [h1]; decide
      · exact absurd h2.symm (guardOpt_ne_some_empty _)
      · rw [h1]; decide
      · exact absurd h2.symm (guardOpt_ne_some_empty _)
      · rw [h1]; decide
      · exact absurd h2.symm (guardOpt_ne_some_empty _)
      · exact absurd h2.symm (guardOpt_ne_some_empty _)
      · exact absurd h2.symm (guardOpt_ne_some_empty _)
      · rw [h1]; decide
      · exact absurd h2.symm (guardOpt_ne_some_empty _)
      · rw [h1]; decide
      · exact absurd h2.symm (guardOpt_ne_some_empty _)
      · rw [h1]; decide
      · exact absurd h2.symm (guardOpt_ne_some_empty _)
      · rw [h1]; decide
      · exact absurd h2.symm (guardOpt_ne_some_empty _)
      · rw [h1]; decide
      · exact absurd h2.symm (guardOpt_ne_some_empty _)
      · rw [h1]; decide
      · exact absurd h2.symm (guardOpt_ne_some_empty _)
      · rw [h1]; decide
      · exact absurd h2.symm (guardOpt_ne_some_empty _)
      · rw [h1]; decide
      · exact absurd h2.symm (guardOpt_ne_some_empty _)
      · rw [h1]; decide
      · exact absurd h2.symm (guardOpt_ne_some_empty _)
      · rw [h1]; decide
      · exact absurd h2.symm (guardOpt_ne_some_empty _)
      · exact absurd h2.symm (guardOpt_ne_some_empty _)
      · exact absurd h2.symm (guardOpt_ne_some_empty _)
      · rw [h1]; decide
      · rw [h1]; decide
      · have h3 := (Option.some.inj h2).symm
        by_cases ha : actDays = ""
        · rw [if_pos ha] at h3
          exact absurd h3 (by decide)
        · rw [if_neg ha] at h3
          exact absurd h3 ha
  · intro k hk
    fin_cases hk
    · exact key_mem_emitted (show ("accountid", some (f .accountid)) ∈
        buildParams p col dir f actDays cf by simp [buildParams])
    · exact key_mem_emitted (show ("trade_count_op", some (f .trade_count_op)) ∈
        buildParams p col dir f actDays cf by simp [buildParams])
    · exact key_mem_emitted (show ("days_op", some (f .days_op)) ∈
        buildParams p col dir f actDays cf by simp [buildParams])
    · exact key_mem_emitted (show ("profit_op", some (f .profit_op)) ∈
        buildParams p col dir f actDays cf by simp [buildParams])
    · exact key_mem_emitted (show ("days_from_last_trade_op", some (f .days_from_last_trade_op)) ∈
        buildParams p col dir f actDays cf by simp [buildParams])
    · exact key_mem_emitted (show ("deposit_count_op", some (f .deposit_count_op)) ∈
        buildParams p col dir f actDays cf by simp [buildParams])
    · exact key_mem_emitted (show ("total_deposit_op", some (f .total_deposit_op)) ∈
        buildParams p col dir f actDays cf by simp [buildParams])
    · exact key_mem_emitted (show ("balance_op", some (f .balance_op)) ∈
        buildParams p col dir f actDays cf by simp [buildParams])
    · exact key_mem_emitted (show ("credit_op", some (f .credit_op)) ∈
        buildParams p col dir f actDays cf by simp [buildParams])
    · exact key_mem_emitted (show ("equity_op", some (f .equity_op)) ∈
        buildParams p col dir f actDays cf by simp [buildParams])
    · exact key_mem_emitted (show ("live_equity_op", some (f .live_equity_op)) ∈
        buildParams p col dir f actDays cf by simp [buildParams])
    · exact key_mem_emitted (show ("max_open_trade_op", some (f .max_open_trade_op)) ∈
        buildParams p col dir f actDays cf by simp [buildParams])
    · exact key_mem_emitted (show ("max_volume_op", some (f .max_volume_op)) ∈
        buildParams p col dir f actDays cf by simp [buildParams])
    · exact key_mem_emitted (show ("turnover_op", some (f .turnover_op)) ∈
        buildParams p col dir f actDays cf by simp [buildParams])
    · exact key_mem_emitted (show ("active", some (f .active)) ∈
        buildParams p col dir f actDays cf by simp [buildParams])
    · exact key_mem_emitted (show ("active_ftd", some (f .active_ftd)) ∈
        buildParams p col dir f actDays cf by simp [buildParams])

/-- Every key produced by a column-filter entry is `filter_`-prefixed. -/
theorem colFilterEntryParams_keys (key : String) (c : ColFilter) :
    ∀ kv ∈ colFilterEntryParams key c, ∃ rest, kv.1 = "filter_" ++ rest := by
  intro kv hkv
  cases c with
  | text value =>
      by_cases hv : value = ""
      · simp [colFilterEntryParams, hv] at hkv
      · simp [colFilterEntryParams, hv] at hkv
        rw [hkv]
        exact ⟨_, rfl⟩
  | numeric op val val2 =>
      by_cases hv : val = ""
      · simp [colFilterEntryParams, hv] at hkv
      · by_cases h2 : op = "between" ∧ val2 ≠ ""
        · simp [colFilterEntryParams, hv, h2.1, h2.2] at hkv
          rcases hkv with rfl | rfl | rfl
          · exact ⟨_, rfl⟩
          · exact ⟨_, rfl⟩
          · exact ⟨_, rfl⟩
        · simp [colFilterEntryParams, hv, h2] at hkv
          rcases hkv with rfl | rfl
          · exact ⟨_, rfl⟩
          · exact ⟨_, rfl⟩
  | date preset fromD toD =>
      by_cases hp : preset ≠ "" ∧ preset ≠ "custom"
      · simp [colFilterEntryParams, hp.1, hp.2] at hkv
        rw [hkv]
        exact ⟨_, rfl⟩
      · by_cases hf : fromD = ""
        · simp [colFilterEntryParams, hp, hf] at hkv
        · by_cases ht : toD = ""
          · simp [colFilterEntryParams, hp, hf, ht] at hkv
            rw [hkv]
            exact ⟨_, rfl⟩
          · simp [colFilterEntryParams, hp, hf, ht] at hkv
            rcases hkv with rfl | rfl
            · exact ⟨_, rfl⟩
            · exact ⟨_, rfl⟩

theorem colFilterParamsList_keys (cf : ColFiltersMap) :
    ∀ kv ∈ colFilterParamsList cf, ∃ rest, kv.1 = "filter_" ++ rest := by
  intro kv hkv
  rcases List.mem_flatMap.mp hkv with ⟨e, he, hkv⟩
  exact colFilterEntryParams_keys e.1 e.2 kv hkv

/-- A `filter_`-prefixed key never coincides with a string whose first
character is not `f`. -/
theorem append_filter_ne (rest t : String) (ht : t.data.head? ≠ some 'f') :
    "filter_" ++ rest ≠ t := by
  intro h
  apply ht
  rw [← h, String.data_append]
  rfl

/-- **C3 counterexample.**  A *global* numeric filter with an operator but an
empty value does contribute a parameter to the built query — its operator
key is sent (`trade_count_op=gt`) — even though it is excluded from the
active-filter count; and a `between` column filter with only the first bound
is not inactive: it emits its operator and first bound.  (A *column* numeric
filter with an empty value cannot even exist in the map.) -/
theorem inactive_numeric_counterexample :
    countActive (setF EMPTY_FILTERS .trade_count_op "gt") = 0 ∧
    ("trade_count_op", "gt") ∈ buildQuery 1 "accountid" "asc"
      (setF EMPTY_FILTERS .trade_count_op "gt") "35" [] ∧
    colFilterEntryParams "balance" (.numeric "between" "5" "") =
      [("filter_balance_op", "between"), ("filter_balance_val", "5")] := by
  refine ⟨by decide, by decide, by decide⟩

/-- **C3 (amended).**  A numeric filter with an operator but an empty value
never counts toward the active-filter count and never contributes a *value*
parameter — but for the global filters its operator key is still emitted.
A per-column numeric filter with an empty primary value cannot exist: the
setter deletes the entry, and an (unreachable) empty-value entry would
contribute nothing.  A `between` column filter with only the first bound is
*active*: it emits its operator and first bound (and no second bound) and,
being present in the map, counts toward the column-filter count.  (Stated
for the `trade_count` pair; the other eight global operator/value pairs
behave identically.) -/
theorem inactive_numeric_filters_spec (p : Nat) (scol dir : String)
    (f : Filters) (actDays : String) (cf : ColFiltersMap)
    (hval : f .trade_count_val = "") :
    countActive f = countActive (setF f .trade_count_op "") ∧
    (∀ v, ("trade_count_val", v) ∉ buildQuery p scol dir f actDays cf) ∧
    (∀ key op val2, colFilterEntryParams key (.numeric op "" val2) = []) ∧
    (∀ key op v2 m, colNumericUpdate key op "" v2 m = eraseKey m key) ∧
    (∀ key v, v ≠ "" →
      colFilterEntryParams key (.numeric "between" v "") =
        [("filter_" ++ filterParamKey key ++ "_op", "between"),
         ("filter_" ++ filterParamKey key ++ "_val", v)]) := by
  refine ⟨?_, ?_, ?_, ?_, ?_⟩
  · simp [countActive, setF, andS, hval]
  · intro v hkv
    have hm : (("trade_count_val" : String), some v) ∈
        buildParams p scol dir f actDays cf := by
      have h := (mem_emittedParams_iff _ ("trade_count_val", v)).mp hkv
      exact h
    unfold buildParams at hm
    simp only [List.mem_append] at hm
    rcases hm with (hm | hm) | hm
    · simp only [List.mem_cons, List.not_mem_nil, or_false, Prod.mk.injEq] at hm
      rcases hm with ⟨h1, h2⟩ | ⟨h1, h2⟩ | ⟨h1, h2⟩ | ⟨h1, h2⟩ | ⟨h1, h2⟩
      · exact absurd h1 (by decide)
      · exact absurd h1 (by decide)
      · exact absurd h1 (by decide)
      · exact absurd h1 (by decide)
      · exact absurd h1 (by decide)
    · rcases List.mem_map.mp hm with ⟨e, he, heq⟩
      rcases colFilterParamsList_keys cf e he with ⟨rest, hrest⟩
      have h1 : e.1 = "trade_count_val" := congrArg Prod.fst heq
      rw [hrest] at h1
      exact absurd h1 (append_filter_ne rest _ (by decide))
    · simp only [List.mem_cons, List.not_mem_nil, or_false, Prod.mk.injEq] at hm
      rcases hm with ⟨h1, h2⟩ | ⟨h1, h2⟩ | ⟨h1, h2⟩ | ⟨h1, h2⟩ | ⟨h1, h2⟩ | ⟨h1, h2⟩ | ⟨h1, h2⟩ | ⟨h1, h2⟩ | ⟨h1, h2⟩ | ⟨h1, h2⟩ | ⟨h1, h2⟩ | ⟨h1, h2⟩ | ⟨h1, h2⟩ | ⟨h1, h2⟩ | ⟨h1, h2⟩ | ⟨h1, h2⟩ | ⟨h1, h2⟩ | ⟨h1, h2⟩ | ⟨h1, h2⟩ | ⟨h1, h2⟩ | ⟨h1, h2⟩ | ⟨h1, h2⟩ | ⟨h1, h2⟩ | ⟨h1, h2⟩ | ⟨h1, h2⟩ | ⟨h1, h2⟩ | ⟨h1, h2⟩ | ⟨h1, h2⟩ | ⟨h1, h2⟩ | ⟨h1, h2⟩ | ⟨h1, h2⟩ | ⟨h1, h2⟩ | ⟨h1, h2⟩ | ⟨h1, h2⟩ | ⟨h1, h2⟩
      · exact absurd h1 (by decide)
      · exact absurd h1 (by decide)
      · exact absurd h1 (by decide)
      · rw [hval] at h2
        simp [guardOpt] at h2
      · exact absurd h1 (by decide)
      · exact absurd h1 (by decide)
      · exact absurd h1 (by decide)
      · exact absurd h1 (by decide)
      · exact absurd h1 (by decide)
      · exact absurd h1 (by decide)
      · exact absurd h1 (by decide)
      · exact absurd h1 (by decide)
      · exact absurd h1 (by decide)
      · exact absurd h1 (by decide)
      · exact absurd h1 (by decide)
      · exact absurd h1 (by decide)
      · exact absurd h1 (by decide)
      · exact absurd h1 (by decide)
      · exact absurd h1 (by decide)
      · exact absurd h1 (by decide)
      · exact absurd h1 (by decide)
      · exact absurd h1 (by decide)
      · exact absurd h1 (by decide)
      · exact absurd h1 (by decide)
      · exact absurd h1 (by decide)
      · exact absurd h1 (by decide)
      · exact absurd h1 (by decide)
      · exact absurd h1 (by decide)
      · exact absurd h1 (by decide)
      · exact absurd h1 (by decide)
      · exact absurd h1 (by decide)
      · exact absurd h1 (by decide)
      · exact absurd h1 (by decide)
      · exact absurd h1 (by decide)
      · exact absurd h1 (by decide)
  · intro key op val2
    simp [colFilterEntryParams]
  · intro key op v2 m
    rfl
  · intro key v hv
    simp [colFilterEntryParams, hv]

/-- Witness for `inactive_numeric_filters_spec`: a `>` operator with no
value does not count as an active filter. -/
theorem inactive_numeric_filters_spec_witness :
    countActive (setF EMPTY_FILTERS .trade_count_op "gt") =
      countActive (setF (setF EMPTY_FILTERS .trade_count_op "gt") .trade_count_op "") := by
  exact (inactive_numeric_filters_spec 1 "accountid" "asc"
    (setF EMPTY_FILTERS .trade_count_op "gt") "35" [] (by decide)).1

/-- Witness for `buildQuery_omission_spec` at the empty filter state. -/
theorem buildQuery_omission_spec_witness :
    "accountid" ∈ (buildQuery 1 "accountid" "asc" EMPTY_FILTERS "35" []).map Prod.fst := by
  exact (buildQuery_omission_spec 1 "accountid" "asc" EMPTY_FILTERS "35" []
    (by decide) (by decide) (fun e he => absurd he (List.not_mem_nil e))).2
    "accountid" (by decide)

/-! ## Active filter chips (C8)

`filterChips` (RetentionPage.tsx, lines 1478–1539) renders one chip per
active global filter and per column filter.  Each global chip's `dismiss`
spreads a record of `''`-valued fields over *both* `applied` and `draft` and
resets the page; each column chip's dismiss deletes the map entry
(`eraseKey`).  `ChipKey` enumerates the global chips; `chipFields` is the
exact field set each chip's dismiss resets, `chipPresent` its render
condition, and `chipParamKeys` the request parameters whose values are read
from those fields (`last_trade_preset` itself is never sent). -/

inductive ChipKey where
  | accountid | qual_date | trade_count | days | profit | last_trade
  | days_from_last_trade | deposit_count | total_deposit | balance | credit | equity | live_equity
  | max_open_trade | max_volume | turnover | assigned_to | task_id | active | active_ftd

def chipFields : ChipKey → List FField
  | .accountid => [.accountid]
  | .qual_date => [.qual_date_from, .qual_date_to]
  | .trade_count => [.trade_count_op, .trade_count_val]
  | .days => [.days_op, .days_val]
  | .profit => [.profit_op, .profit_val]
  | .last_trade => [.last_trade_preset, .last_trade_from, .last_trade_to]
  | .days_from_last_trade => [.days_from_last_trade_op, .days_from_last_trade_val]
  | .deposit_count => [.deposit_count_op, .deposit_count_val]
  | .total_deposit => [.total_deposit_op, .total_deposit_val]
  | .balance => [.balance_op, .balance_val]
  | .credit => [.credit_op, .credit_val]
  | .equity => [.equity_op, .equity_val]
  | .live_equity => [.live_equity_op, .live_equity_val]
  | .max_open_trade => [.max_open_trade_op, .max_open_trade_val]
  | .max_volume => [.max_volume_op, .max_volume_val]
  | .turnover => [.turnover_op, .turnover_val]
  | .assigned_to => [.assigned_to]
  | .task_id => [.task_id]
  | .active => [.active]
  | .active_ftd => [.active_ftd]

def chipParamKeys : ChipKey → List String
  | .accountid => ["accountid"]
  | .qual_date => ["qual_date_from", "qual_date_to"]
  | .trade_count => ["trade_count_op", "trade_count_val"]
  | .days => ["days_op", "days_val"]
  | .profit => ["profit_op", "profit_val"]
  | .last_trade => ["last_trade_from", "last_trade_to"]
  | .days_from_last_trade => ["days_from_last_trade_op", "days_from_last_trade_val"]
  | .deposit_count => ["deposit_count_op", "deposit_count_val"]
  | .total_deposit => ["total_deposit_op", "total_deposit_val"]
  | .balance => ["balance_op", "balance_val"]
  | .credit => ["credit_op", "credit_val"]
  | .equity => ["equity_op", "equity_val"]
  | .live_equity => ["live_equity_op", "live_equity_val"]
  | .max_open_trade => ["max_open_trade_op", "max_open_trade_val"]
  | .max_volume => ["max_volume_op", "max_volume_val"]
  | .turnover => ["turnover_op", "turnover_val"]
  | .assigned_to => ["assigned_to"]
  | .task_id => ["task_id"]
  | .active => ["active"]
  | .active_ftd => ["active_ftd"]

def chipPresent (c : ChipKey) (f : Filters) : Bool :=
  match c with
  | .accountid => f .accountid ≠ ""
  | .qual_date => f .qual_date_from ≠ "" ∨ f .qual_date_to ≠ ""
  | .trade_count => f .trade_count_op ≠ "" ∧ f .trade_count_val ≠ ""
  | .days => f .days_op ≠ "" ∧ f .days_val ≠ ""
  | .profit => f .profit_op ≠ "" ∧ f .profit_val ≠ ""
  | .last_trade => (f .last_trade_preset ≠ "" ∧ f .last_trade_preset ≠ "custom") ∨ f .last_trade_from ≠ "" ∨ f .last_trade_to ≠ ""
  | .days_from_last_trade => f .days_from_last_trade_op ≠ "" ∧ f .days_from_last_trade_val ≠ ""
  | .deposit_count => f .deposit_count_op ≠ "" ∧ f .deposit_count_val ≠ ""
  | .total_deposit => f .total_deposit_op ≠ "" ∧ f .total_deposit_val ≠ ""
  | .balance => f .balance_op ≠ "" ∧ f .balance_val ≠ ""
  | .credit => f .credit_op ≠ "" ∧ f .credit_val ≠ ""
  | .equity => f .equity_op ≠ "" ∧ f .equity_val ≠ ""
  | .live_equity => f .live_equity_op ≠ "" ∧ f .live_equity_val ≠ ""
  | .max_open_trade => f .max_open_trade_op ≠ "" ∧ f .max_open_trade_val ≠ ""
  | .max_volume => f .max_volume_op ≠ "" ∧ f .max_volume_val ≠ ""
  | .turnover => f .turnover_op ≠ "" ∧ f .turnover_val ≠ ""
  | .assigned_to => f .assigned_to ≠ ""
  | .task_id => f .task_id ≠ ""
  | .active => f .active ≠ ""
  | .active_ftd => f .active_ftd ≠ ""

/-- A global chip's `dismiss`: `{ ...prev, ...fields }` with every listed
field set to `''`. -/
def dismissChip (c : ChipKey) (f : Filters) : Filters :=
  fun x => if x ∈ chipFields c then "" else f x

/-- A global chip's dismiss acts on both stores and resets the page (lines
1483–1487); it does not touch the column filters. -/
def dismissChipState (c : ChipKey) (s : GridState) : GridState :=
  { s with applied := dismissChip c s.applied,
            draft := dismissChip c s.draft, page := 1 }

/-- The seven parameter names a column's filters can produce. -/
def colParamKeySet (key : String) : List String :=
  ["filter_" ++ filterParamKey key,
   "filter_" ++ filterParamKey key ++ "_op",
   "filter_" ++ filterParamKey key ++ "_val",
   "filter_" ++ filterParamKey key ++ "_val2",
   "filter_" ++ filterParamKey key ++ "_preset",
   "filter_" ++ filterParamKey key ++ "_from",
   "filter_" ++ filterParamKey key ++ "_to"]

theorem colFilterEntryParams_key_in_set (key : String) (c : ColFilter) :
    ∀ kv ∈ colFilterEntryParams key c, kv.1 ∈ colParamKeySet key := by
  intro kv hkv
  cases c with
  | text value =>
      by_cases hv : value = ""
      · simp [colFilterEntryParams, hv] at hkv
      · simp [colFilterEntryParams, hv] at hkv
        rw [hkv]
        simp [colParamKeySet]
  | numeric op val val2 =>
      by_cases hv : val = ""
      · simp [colFilterEntryParams, hv] at hkv
      · by_cases h2 : op = "between" ∧ val2 ≠ ""
        · simp [colFilterEntryParams, hv, h2.1, h2.2] at hkv
          rcases hkv with rfl | rfl | rfl <;> simp [colParamKeySet]
        · simp [colFilterEntryParams, hv, h2] at hkv
          rcases hkv with rfl | rfl <;> simp [colParamKeySet]
  | date preset fromD toD =>
      by_cases hp : preset ≠ "" ∧ preset ≠ "custom"
      · simp [colFilterEntryParams, hp.1, hp.2] at hkv
        rw [hkv]
        simp [colParamKeySet]
      · by_cases hf : fromD = ""
        · simp [colFilterEntryParams, hp, hf] at hkv
        · by_cases ht : toD = ""
          · simp [colFilterEntryParams, hp, hf, ht] at hkv
            rw [hkv]
            simp [colParamKeySet]
          · simp [colFilterEntryParams, hp, hf, ht] at hkv
            rcases hkv with rfl | rfl <;> simp [colParamKeySet]

/-- No column-filter parameter key is a global chip's parameter key. -/
theorem filter_key_not_chip (c : ChipKey) (rest : String) :
    ("filter_" ++ rest) ∉ chipParamKeys c := by
  cases c with
  | accountid =>
      intro h
      simp only [chipParamKeys, List.mem_cons, List.not_mem_nil, or_false] at h
      exact append_filter_ne rest _ (by decide) h
  | qual_date =>
      intro h
      simp only [chipParamKeys, List.mem_cons, List.not_mem_nil, or_false] at h
      rcases h with h | h
      · exact append_filter_ne rest _ (by decide) h
      · exact append_filter_ne rest _ (by decide) h
  | trade_count =>
      intro h
      simp only [chipParamKeys, List.mem_cons, List.not_mem_nil, or_false] at h
      rcases h with h | h
      · exact append_filter_ne rest _ (by decide) h
      · exact append_filter_ne rest _ (by decide) h
  | days =>
      intro h
      simp only [chipParamKeys, List.mem_cons, List.not_mem_nil, or_false] at h
      rcases h with h | h
      · exact append_filter_ne rest _ (by decide) h
      · exact append_filter_ne rest _ (by decide) h
  | profit =>
      intro h
      simp only [chipParamKeys, List.mem_cons, List.not_mem_nil, or_false] at h
      rcases h with h | h
      · exact append_filter_ne rest _ (by decide) h
      · exact append_filter_ne rest _ (by decide) h
  | last_trade =>
      intro h
      simp only [chipParamKeys, List.mem_cons, List.not_mem_nil, or_false] at h
      rcases h with h | h
      · exact append_filter_ne rest _ (by decide) h
      · exact append_filter_ne rest _ (by decide) h
  | days_from_last_trade =>
      intro h
      simp only [chipParamKeys, List.mem_cons, List.not_mem_nil, or_false] at h
      rcases h with h | h
      · exact append_filter_ne rest _ (by decide) h
      · exact append_filter_ne rest _ (by decide) h
  | deposit_count =>
      intro h
      simp only [chipParamKeys, List.mem_cons, List.not_mem_nil, or_false] at h
      rcases h with h | h
      · exact append_filter_ne rest _ (by decide) h
      · exact append_filter_ne rest _ (by decide) h
  | total_deposit =>
      intro h
      simp only [chipParamKeys, List.mem_cons, List.not_mem_nil, or_false] at h
      rcases h with h | h
      · exact append_filter_ne rest _ (by decide) h
      · exact append_filter_ne rest _ (by decide) h
  | balance =>
      intro h
      simp only [chipParamKeys, List.mem_cons, List.not_mem_nil, or_false] at h
      rcases h with h | h
      · exact append_filter_ne rest _ (by decide) h
      · exact append_filter_ne rest _ (by decide) h
  | credit =>
      intro h
      simp only [chipParamKeys, List.mem_cons, List.not_mem_nil, or_false] at h
      rcases h with h | h
      · exact append_filter_ne rest _ (by decide) h
      · exact append_filter_ne rest _ (by decide) h
  | equity =>
      intro h
      simp only [chipParamKeys, List.mem_cons, List.not_mem_nil, or_false] at h
      rcases h with h | h
      · exact append_filter_ne rest _ (by decide) h
      · exact append_filter_ne rest _ (by decide) h
  | live_equity =>
      intro h
      simp only [chipParamKeys, List.mem_cons, List.not_mem_nil, or_false] at h
      rcases h with h | h
      · exact append_filter_ne rest _ (by decide) h
      · exact append_filter_ne rest _ (by decide) h
  | max_open_trade =>
      intro h
      simp only [chipParamKeys, List.mem_cons, List.not_mem_nil, or_false] at h
      rcases h with h | h
      · exact append_filter_ne rest _ (by decide) h
      · exact append_filter_ne rest _ (by decide) h
  | max_volume =>
      intro h
      simp only [chipParamKeys, List.mem_cons, List.not_mem_nil, or_false] at h
      rcases h with h | h
      · exact append_filter_ne rest _ (by decide) h
      · exact append_filter_ne rest _ (by decide) h
  | turnover =>
      intro h
      simp only [chipParamKeys, List.mem_cons, List.not_mem_nil, or_false] at h
      rcases h with h | h
      · exact append_filter_ne rest _ (by decide) h
      · exact append_filter_ne rest _ (by decide) h
  | assigned_to =>
      intro h
      simp only [chipParamKeys, List.mem_cons, List.not_mem_nil, or_false] at h
      exact append_filter_ne rest _ (by decide) h
  | task_id =>
      intro h
      simp only [chipParamKeys, List.mem_cons, List.not_mem_nil, or_false] at h
      exact append_filter_ne rest _ (by decide) h
  | active =>
      intro h
      simp only [chipParamKeys, List.mem_cons, List.not_mem_nil, or_false] at h
      exact append_filter_ne rest _ (by decide) h
  | active_ftd =>
      intro h
      simp only [chipParamKeys, List.mem_cons, List.not_mem_nil, or_false] at h
      exact append_filter_ne rest _ (by decide) h

/-- **C8 counterexample.**  Dismissing the `accountid` chip resets the field
in both stores, but the subsequent query still *contains* the `accountid`
parameter (as an empty string): the parameter is not omitted, because
`accountid` is passed without the `|| undefined` guard. -/
theorem chip_dismiss_counterexample :
    chipPresent ChipKey.accountid (setF EMPTY_FILTERS .accountid "AB1") = true ∧
    ("accountid", "") ∈ buildQuery 1 "accountid" "asc"
      (dismissChip ChipKey.accountid (setF EMPTY_FILTERS .accountid "AB1")) "35" [] := by
  refine ⟨by decide, by decide⟩

/-- **C8 (amended).**  Dismissing a global chip resets exactly the fields
that produced it (to `''`), leaves every other filter field — and the
column-filter map — unchanged, acts on both draft and applied and resets
the page; afterwards the chip's render condition is false and every emitted
parameter corresponding to the chip carries no value (the guarded ones are
omitted outright, the unguarded ones are still present but empty — the one
deviation from the claim as stated).  Dismissing a column chip deletes
exactly that column's map entry, every remaining column-filter parameter is
attributable to a different, still-present column, and concretely erasing
the `balance` entry removes both of its parameters. -/
theorem chip_dismissal_spec (c : ChipKey) (s : GridState) (p : Nat)
    (scol dir actDays : String) (cf : ColFiltersMap) :
    (∀ x ∈ chipFields c, dismissChip c s.applied x = "") ∧
    (∀ x, x ∉ chipFields c → dismissChip c s.applied x = s.applied x) ∧
    (dismissChipState c s).applied = dismissChip c s.applied ∧
    (dismissChipState c s).draft = dismissChip c s.draft ∧
    (dismissChipState c s).page = 1 ∧
    (dismissChipState c s).colFilters = s.colFilters ∧
    chipPresent c (dismissChip c s.applied) = false ∧
    (∀ kv ∈ buildQuery p scol dir (dismissChip c s.applied) actDays cf,
        kv.1 ∈ chipParamKeys c → kv.2 = "") ∧
    (∀ col (m : ColFiltersMap), ∀ e ∈ eraseKey m col, e.1 ≠ col) ∧
    (∀ col (m : ColFiltersMap), ∀ kv ∈ colFilterParamsList (eraseKey m col),
        ∃ e, e ∈ m ∧ e.1 ≠ col ∧ kv.1 ∈ colParamKeySet e.1) ∧
    colFilterParamsList
        (eraseKey [("balance", ColFilter.numeric "gt" "5" ""),
                   ("accountid", ColFilter.text "AB")] "balance")
      = [("filter_accountid", "AB")] := by
  refine ⟨?_, ?_, rfl, rfl, rfl, rfl, ?_, ?_, ?_, ?_, by decide⟩
  · intro x hx
    simp [dismissChip, hx]
  · intro x hx
    simp [dismissChip, hx]
  · cases c <;> simp [chipPresent, dismissChip, chipFields]
  · intro kv hkv hk
    have hm : (kv.1, some kv.2) ∈
        buildParams p scol dir (dismissChip c s.applied) actDays cf :=
      (mem_emittedParams_iff _ kv).mp hkv
    unfold buildParams at hm
    simp only [List.mem_append] at hm
    rcases hm with (hm | hm) | hm
    · simp only [List.mem_cons, List.not_mem_nil, or_false, Prod.mk.injEq] at hm
      rcases hm with ⟨h1, h2⟩ | ⟨h1, h2⟩ | ⟨h1, h2⟩ | ⟨h1, h2⟩ | ⟨h1, h2⟩
      · rw [h1] at hk
        exact absurd hk (by cases c <;> decide)
      · rw [h1] at hk
        exact absurd hk (by cases c <;> decide)
      · rw [h1] at hk
        exact absurd hk (by cases c <;> decide)
      · rw [h1] at hk
        exact absurd hk (by cases c <;> decide)
      · rw [h1] at hk
        have hfld : FField.accountid ∈ chipFields c := by
          cases c <;> first | exact absurd hk (by decide) | decide
        rw [Option.some.inj h2]
        simp [dismissChip, hfld]
    · rcases List.mem_map.mp hm with ⟨e, he, heq⟩
      rcases colFilterParamsList_keys cf e he with ⟨rest, hrest⟩
      have h1 : e.1 = kv.1 := by
        have h := congrArg Prod.fst heq
        simpa using h
      rw [hrest] at h1
      rw [← h1] at hk
      exact absurd hk (filter_key_not_chip c rest)
    · simp only [List.mem_cons, List.not_mem_nil, or_false, Prod.mk.injEq] at hm
      rcases hm with ⟨h1, h2⟩ | ⟨h1, h2⟩ | ⟨h1, h2⟩ | ⟨h1, h2⟩ | ⟨h1, h2⟩ | ⟨h1, h2⟩ | ⟨h1, h2⟩ | ⟨h1, h2⟩ | ⟨h1, h2⟩ | ⟨h1, h2⟩ | ⟨h1, h2⟩ | ⟨h1, h2⟩ | ⟨h1, h2⟩ | ⟨h1, h2⟩ | ⟨h1, h2⟩ | ⟨h1, h2⟩ | ⟨h1, h2⟩ | ⟨h1, h2⟩ | ⟨h1, h2⟩ | ⟨h1, h2⟩ | ⟨h1, h2⟩ | ⟨h1, h2⟩ | ⟨h1, h2⟩ | ⟨h1, h2⟩ | ⟨h1, h2⟩ | ⟨h1, h2⟩ | ⟨h1, h2⟩ | ⟨h1, h2⟩ | ⟨h1, h2⟩ | ⟨h1, h2⟩ | ⟨h1, h2⟩ | ⟨h1, h2⟩ | ⟨h1, h2⟩ | ⟨h1, h2⟩ | ⟨h1, h2⟩
      · rw [h1] at hk
        have hfld : FField.qual_date_from ∈ chipFields c := by
          cases c <;> first | exact absurd hk (by decide) | decide
        have hz : dismissChip c s.applied FField.qual_date_from = "" := by
          simp [dismissChip, hfld]
        rw [hz] at h2
        simp [guardOpt] at h2
      · rw [h1] at hk
        have hfld : FField.qual_date_to ∈ chipFields c := by
          cases c <;> first | exact absurd hk (by decide) | decide
        have hz : dismissChip c s.applied FField.qual_date_to = "" := by
          simp [dismissChip, hfld]
        rw [hz] at h2
        simp [guardOpt] at h2
      · rw [h1] at hk
        have hfld : FField.trade_count_op ∈ chipFields c := by
          cases c <;> first | exact absurd hk (by decide) | decide
        rw [Option.some.inj h2]
        simp [dismissChip, hfld]
      · rw [h1] at hk
        have hfld : FField.trade_count_val ∈ chipFields c := by
          cases c <;> first | exact absurd hk (by decide) | decide
        have hz : dismissChip c s.applied FField.trade_count_val = "" := by
          simp [dismissChip, hfld]
        rw [hz] at h2
        simp [guardOpt] at h2
      · rw [h1] at hk
        have hfld : FField.days_op ∈ chipFields c := by
          cases c <;> first | exact absurd hk (by decide) | decide
        rw [Option.some.inj h2]
        simp [dismissChip, hfld]
      · rw [h1] at hk
        have hfld : FField.days_val ∈ chipFields c := by
          cases c <;> first | exact absurd hk (by decide) | decide
        have hz : dismissChip c s.applied FField.days_val = "" := by
          simp [dismissChip, hfld]
        rw [hz] at h2
        simp [guardOpt] at h2
      · rw [h1] at hk
        have hfld : FField.profit_op ∈ chipFields c := by
          cases c <;> first | exact absurd hk (by decide) | decide
        rw [Option.some.inj h2]
        simp [dismissChip, hfld]
      · rw [h1] at hk
        have hfld : FField.profit_val ∈ chipFields c := by
          cases c <;> first | exact absurd hk (by decide) | decide
        have hz : dismissChip c s.applied FField.profit_val = "" := by
          simp [dismissChip, hfld]
        rw [hz] at h2
        simp [guardOpt] at h2
      · rw [h1] at hk
        have hfld : FField.last_trade_from ∈ chipFields c := by
          cases c <;> first | exact absurd hk (by decide) | decide
        have hz : dismissChip c s.applied FField.last_trade_from = "" := by
          simp [dismissChip, hfld]
        rw [hz] at h2
        simp [guardOpt] at h2
      · rw [h1] at hk
        have hfld : FField.last_trade_to ∈ chipFields c := by
          cases c <;> first | exact absurd hk (by decide) | decide
        have hz : dismissChip c s.applied FField.last_trade_to = "" := by
          simp [dismissChip, hfld]
        rw [hz] at h2
        simp [guardOpt] at h2
      · rw [h1] at hk
        have hfld : FField.days_from_last_trade_op ∈ chipFields c := by
          cases c <;> first | exact absurd hk (by decide) | decide
        rw [Option.some.inj h2]
        simp [dismissChip, hfld]
      · rw [h1] at hk
        have hfld : FField.days_from_last_trade_val ∈ chipFields c := by
          cases c <;> first | exact absurd hk (by decide) | decide
        have hz : dismissChip c s.applied FField.days_from_last_trade_val = "" := by
          simp [dismissChip, hfld]
        rw [hz] at h2
        simp [guardOpt] at h2
      · rw [h1] at hk
        have hfld : FField.deposit_count_op ∈ chipFields c := by
          cases c <;> first | exact absurd hk (by decide) | decide
        rw [Option.some.inj h2]
        simp [dismissChip, hfld]
      · rw [h1] at hk
        have hfld : FField.deposit_count_val ∈ chipFields c := by
          cases c <;> first | exact absurd hk (by decide) | decide
        have hz : dismissChip c s.applied FField.deposit_count_val = "" := by
          simp [dismissChip, hfld]
        rw [hz] at h2
        simp [guardOpt] at h2
      · rw [h1] at hk
        have hfld : FField.total_deposit_op ∈ chipFields c := by
          cases c <;> first | exact absurd hk (by decide) | decide
        rw [Option.some.inj h2]
        simp [dismissChip, hfld]
      · rw [h1] at hk
        have hfld : FField.total_deposit_val ∈ chipFields c := by
          cases c <;> first | exact absurd hk (by decide) | decide
        have hz : dismissChip c s.applied FField.total_deposit_val = "" := by
          simp [dismissChip, hfld]
        rw [hz] at h2
        simp [guardOpt] at h2
      · rw [h1] at hk
        have hfld : FField.balance_op ∈ chipFields c := by
          cases c <;> first | exact absurd hk (by decide) | decide
        rw [Option.some.inj h2]
        simp [dismissChip, hfld]
      · rw [h1] at hk
        have hfld : FField.balance_val ∈ chipFields c := by
          cases c <;> first | exact absurd hk (by decide) | decide
        have hz : dismissChip c s.applied FField.balance_val = "" := by
          simp [dismissChip, hfld]
        rw [hz] at h2
        simp [guardOpt] at h2
      · rw [h1] at hk
        have hfld : FField.credit_op ∈ chipFields c := by
          cases c <;> first | exact absurd hk (by decide) | decide
        rw [Option.some.inj h2]
        simp [dismissChip, hfld]
      · rw [h1] at hk
        have hfld : FField.credit_val ∈ chipFields c := by
          cases c <;> first | exact absurd hk (by decide) | decide
        have hz : dismissChip c s.applied FField.credit_val = "" := by
          simp [dismissChip, hfld]
        rw [hz] at h2
        simp [guardOpt] at h2
      · rw [h1] at hk
        have hfld : FField.equity_op ∈ chipFields c := by
          cases c <;> first | exact absurd hk (by decide) | decide
        rw [Option.some.inj h2]
        simp [dismissChip, hfld]
      · rw [h1] at hk
        have hfld : FField.equity_val ∈ chipFields c := by
          cases c <;> first | exact absurd hk (by decide) | decide
        have hz : dismissChip c s.applied FField.equity_val = "" := by
          simp [dismissChip, hfld]
        rw [hz] at h2
        simp [guardOpt] at h2
      · rw [h1] at hk
        have hfld : FField.live_equity_op ∈ chipFields c := by
          cases c <;> first | exact absurd hk (by decide) | decide
        rw [Option.some.inj h2]
        simp [dismissChip, hfld]
      · rw [h1] at hk
        have hfld : FField.live_equity_val ∈ chipFields c := by
          cases c <;> first | exact absurd hk (by decide) | decide
        have hz : dismissChip c s.applied FField.live_equity_val = "" := by
          simp [dismissChip, hfld]
        rw [hz] at h2
        simp [guardOpt] at h2
      · rw [h1] at hk
        have hfld : FField.max_open_trade_op ∈ chipFields c := by
          cases c <;> first | exact absurd hk (by decide) | decide
        rw [Option.some.inj h2]
        simp [dismissChip, hfld]
      · rw [h1] at hk
        have hfld : FField.max_open_trade_val ∈ chipFields c := by
          cases c <;> first | exact absurd hk (by decide) | decide
        have hz : dismissChip c s.applied FField.max_open_trade_val = "" := by
          simp [dismissChip, hfld]
        rw [hz] at h2
        simp [guardOpt] at h2
      · rw [h1] at hk
        have hfld : FField.max_volume_op ∈ chipFields c := by
          cases c <;> first | exact absurd hk (by decide) | decide
        rw [Option.some.inj h2]
        simp [dismissChip, hfld]
      · rw [h1] at hk
        have hfld : FField.max_volume_val ∈ chipFields c := by
          cases c <;> first | exact absurd hk (by decide) | decide
        have hz : dismissChip c s.applied FField.max_volume_val = "" := by
          simp [dismissChip, hfld]
        rw [hz] at h2
        simp [guardOpt] at h2
      · rw [h1] at hk
        have hfld : FField.turnover_op ∈ chipFields c := by
          cases c <;> first | exact absurd hk (by decide) | decide
        rw [Option.some.inj h2]
        simp [dismissChip, hfld]
      · rw [h1] at hk
        have hfld : FField.turnover_val ∈ chipFields c := by
          cases c <;> first | exact absurd hk (by decide) | decide
        have hz : dismissChip c s.applied FField.turnover_val = "" := by
          simp [dismissChip, hfld]
        rw [hz] at h2
        simp [guardOpt] at h2
      · rw [h1] at hk
        have hfld : FField.assigned_to ∈ chipFields c := by
          cases c <;> first | exact absurd hk (by decide) | decide
        have hz : dismissChip c s.applied FField.assigned_to = "" := by
          simp [dismissChip, hfld]
        rw [hz] at h2
        simp [guardOpt] at h2
      · rw [h1] at hk
        have hfld : FField.task_id ∈ chipFields c := by
          cases c <;> first | exact absurd hk (by decide) | decide
        have hz : dismissChip c s.applied FField.task_id = "" := by
          simp [dismissChip, hfld]
        rw [hz] at h2
        simp [guardOpt] at h2
      · rw [h1] at hk
        have hfld : FField.active ∈ chipFields c := by
          cases c <;> first | exact absurd hk (by decide) | decide
        rw [Option.some.inj h2]
        simp [dismissChip, hfld]
      · rw [h1] at hk
        have hfld : FField.active_ftd ∈ chipFields c := by
          cases c <;> first | exact absurd hk (by decide) | decide
        rw [Option.some.inj h2]
        simp [dismissChip, hfld]
      · rw [h1] at hk
        exact absurd hk (by cases c <;> decide)
  · intro col m e he
    have h := (List.mem_filter.mp he).2
    exact of_decide_eq_true h
  · intro col m kv hkv
    rcases List.mem_flatMap.mp hkv with ⟨e, he, hkv⟩
    have hem := List.mem_filter.mp he
    exact ⟨e, hem.1, of_decide_eq_true hem.2,
      colFilterEntryParams_key_in_set e.1 e.2 kv hkv⟩

/-- Witness for `chip_dismissal_spec`: dismissing the accountid chip clears
the field. -/
theorem chip_dismissal_spec_witness :
    dismissChip ChipKey.accountid (setF EMPTY_FILTERS .accountid "AB1")
      FField.accountid = "" := by
  exact (chip_dismissal_spec ChipKey.accountid
    { initState with applied := setF EMPTY_FILTERS .accountid "AB1" }
    1 "accountid" "asc" "35" []).1 FField.accountid (by decide)

end RetentionGrid
